import Mathlib

/-!
# sv::dsol node (node_ros.cpp): dispatch layer between sensor streams and the estimator

Shallow embedding of `struct NodeData` and its handlers
(`imuCallback`, `odomCallback`, `getPrediction`, `StereoCb`, `StereoDepthCb`,
`Run`, `PublishOdom`, `PublishCloud`, `SendTransform`) as pure functions on an
explicit node state, returning the new state together with the list of
externally visible calls made by the handler, in program order.

Conventions
* `ros::Time` carries unsigned `sec`/`nsec`; it is represented by the total
  number of nanoseconds, a `Nat`, and `ros::Duration` by the signed
  difference.  Their 32-bit range limits are not modelled.
* `double` values are represented by exact rationals; rounding, infinities
  and NaN are not modelled.
* Types and functions of the libraries the node is linked against (Eigen,
  Sophus, OpenCV, cv_bridge, tf, the motion model and the direct-odometry
  estimator) are not part of `node_ros.cpp`; they are the fields of `Lib`,
  and the theorems hold for every `Lib`.
* `Run` dereferences `cv_ptrDepth` when `use_depth` is set; handlers return
  an `Option`, and `none` stands for that dereference of a null pointer.
-/

namespace sv.dsol

/-- Value of `ros::Time`: nanoseconds since the epoch (unsigned). -/
abbrev Time := Nat

/-- Value of `ros::Duration`: signed nanoseconds. -/
abbrev Duration := Int

/-- Method `ros::Time::toSec`. -/
def Time.toSec (t : Time) : ℚ := (t : ℚ) / 1000000000

/-- Method `ros::Duration::toSec`. -/
def Duration.toSec (d : Duration) : ℚ := (d : ℚ) / 1000000000

/-- Operator `ros::Time - ros::Time`. -/
def Time.sub (a b : Time) : Duration := (a : Int) - (b : Int)

/-- Message `sensor_msgs::Imu` (the fields the node reads). -/
structure Imu (V Q : Type) where
  stamp : Time
  angular_velocity : V
  orientation : Q

/-- Message `nav_msgs::Odometry` (the fields the node reads):
`twist.twist.linear` and `pose.pose.position`. -/
structure Odometry (V : Type) where
  stamp : Time
  linear : V
  position_x : ℚ
  position_y : ℚ
  position_z : ℚ

/-- Message `sensor_msgs::Image`. -/
structure Image (D : Type) where
  stamp : Time
  data : D

/-- Value `cv_bridge::CvImage` behind a `CvImageConstPtr`. -/
structure CvImage (M : Type) where
  stamp : Time
  image : M

/-- Value `OdomStatus` returned by the estimator (the fields the node reads):
`track.ok`, `map.remove_kf` and `Twc()`. -/
structure OdomStatus (P : Type) where
  track_ok : Bool
  map_remove_kf : Bool
  Twc : P

/-- Types and operations the node takes from its libraries. -/
structure Lib where
  /-- Type `Eigen::Vector3d`. -/
  Vec : Type
  /-- Type `Sophus::SO3d`. -/
  SO3 : Type
  /-- Type `Sophus::SE3d`. -/
  SE3 : Type
  /-- Type `geometry_msgs::Quaternion`. -/
  Quat : Type
  /-- Type `cv::Mat`. -/
  Mat : Type
  /-- Pixel payload of a `sensor_msgs::Image`. -/
  ImageData : Type
  /-- Class `MotionModel`. -/
  Motion : Type
  /-- Class `DirectOdometry`. -/
  Odom : Type
  /-- Point data of a `sensor_msgs::PointCloud2`. -/
  Cloud : Type
  /-- Value `Eigen::Vector3d::Zero()`. -/
  vecZero : Vec
  /-- Product `v * s` of a vector and a `double`. -/
  vecScale : Vec → ℚ → Vec
  /-- Default-constructed `Sophus::SO3d()`. -/
  so3Id : SO3
  /-- Function `Sophus::SO3d::exp`. -/
  so3Exp : Vec → SO3
  /-- Default-constructed `Sophus::SE3d()`. -/
  se3Id : SE3
  /-- Constructor `SE3d{rotation, translation}`. -/
  se3Mk : SO3 → Vec → SE3
  /-- Product `a * b` of two `SE3d` (also used by `a *= b`). -/
  se3Mul : SE3 → SE3 → SE3
  /-- Accessor `SE3d::translation()`. -/
  translation : SE3 → Vec
  /-- Default-constructed quaternion message. -/
  quatZero : Quat
  /-- Function `tf::getYaw`. -/
  getYaw : Quat → ℚ
  /-- Constant `M_PI`. -/
  M_PI : ℚ
  /-- Default-constructed (empty) `cv::Mat`. -/
  matEmpty : Mat
  /-- Method `cv::Mat::convertTo(_, CV_32FC1, alpha)`. -/
  convertTo : Mat → ℚ → Mat
  /-- Function `cv::threshold(_, _, thresh, 0, cv::THRESH_TOZERO_INV)`. -/
  thresholdToZeroInv : Mat → ℚ → Mat
  /-- Function `cv_bridge::toCvShare`; `none` when it throws
  `cv_bridge::Exception`. -/
  toCvShare : Image ImageData → Option (CvImage Mat)
  /-- Constructor `MotionModel(alpha)`. -/
  motionNew : ℚ → Motion
  /-- Method `MotionModel::Init`. -/
  motionInit : Motion → SE3 → Motion
  /-- Method `MotionModel::PredictDelta`: the prediction and the model
  afterwards. -/
  motionPredictDelta : Motion → ℚ → SE3 × Motion
  /-- Method `MotionModel::Correct`. -/
  motionCorrect : Motion → SE3 → ℚ → Motion
  /-- Method `MotionModel::Scale`. -/
  motionScale : Motion → ℚ → Motion
  /-- Method `DirectOdometry::Estimate`: the returned status and the
  estimator afterwards. -/
  estimate : Odom → Mat → Mat → SE3 → Mat → OdomStatus SE3 × Odom
  /-- Method `odom_.window.GetAllPoses()`. -/
  getAllPoses : Odom → List SE3
  /-- Function `Keyframe2CloudCameraFrame(odom_.window.MargKf(), cloud,
  cloud_max_depth_)`. -/
  keyframe2CloudCameraFrame : Odom → ℚ → Cloud

/-- Severity of a `ROS_*` logging statement. -/
inductive LogLevel where
  | debug | info | warn | error
  deriving DecidableEq, Repr

/-- Calls a handler makes on its collaborators, in program order. -/
inductive Effect (L : Lib) where
  /-- Call `imu_odom_pub_.Publish(stamp, pose)`. -/
  | imuOdomPublish (stamp : Time) (pose : L.SE3)
  /-- A `ROS_*` logging statement. -/
  | log (lvl : LogLevel)
  /-- Call `motion_.Init(T)`. -/
  | motionInit (T : L.SE3)
  /-- Call `motion_.PredictDelta(dt)`. -/
  | motionPredictDelta (dt : ℚ)
  /-- Call `odom_.Estimate(image_l, image_r, dT_pred, image_depth)` and the
  status it returned. -/
  | estimate (image_l image_r : L.Mat) (dT_pred : L.SE3) (image_depth : L.Mat)
      (status : OdomStatus L.SE3)
  /-- Call `motion_.Correct(Twc, dt)`. -/
  | motionCorrect (Twc : L.SE3) (dt : ℚ)
  /-- Call `motion_.Scale(factor)`. -/
  | motionScale (factor : ℚ)
  /-- Call `writer_.Write(cnt, Twc)`. -/
  | writerWrite (cnt : Int) (Twc : L.SE3)
  /-- Call `odom_pub_.Publish(stamp, Twc)`. -/
  | odomPublish (stamp : Time) (Twc : L.SE3)
  /-- Call `tfbr_.sendTransform` from `SendTransform`, for the message
  returned by `odom_pub_.Publish(stamp, pose)`. -/
  | sendTransform (stamp : Time) (pose : L.SE3) (child_frame : String)
  /-- Call `pose_array_pub_.publish`. -/
  | poseArrayPublish (frame_id : String) (stamp : Time) (poses : List L.SE3)
  /-- Call `points_pub_.publish(cloud)`. -/
  | pointsPublish (frame_id : String) (stamp : Time) (point_step : Nat) (cloud : L.Cloud)

/-- Header `std_msgs::Header`. -/
structure Header where
  frame_id : String
  stamp : Time

/-- Data members of `struct NodeData` that the handlers read or write. -/
structure NodeData (L : Lib) where
  data_max_depth_ : ℚ
  cloud_max_depth_ : ℚ
  motion_ : L.Motion
  odom_ : L.Odom
  frame_ : String
  curr_imu_msg_ : Imu L.Vec L.Quat
  prev_imu_msg_ : Imu L.Vec L.Quat
  curr_enc_msg_ : Odometry L.Vec
  prev_enc_msg_ : Odometry L.Vec
  prev_time : ℚ
  flag : Int
  cnt : Int
  use_depth : Bool
  use_imu : Bool
  use_odom : Bool
  received_imu : Bool
  received_odom : Bool
  dT_pred : L.SE3
  T_c0_c_gt : L.SE3
  pred_init : Bool
  tw_vel : L.Vec
  prev_msg_time : Time
  imu_pred_pose : L.SE3
  acc_pose : L.SE3

/-- Parameters read from the node handle by the constructor and `InitRosIO`,
and the estimator configured by `InitOdom`. -/
structure Params (L : Lib) where
  fix_frame : String
  use_imu : Bool
  use_odom : Bool
  use_depth : Bool
  data_max_depth : ℚ
  cloud_max_depth : ℚ
  motion_alpha : ℚ
  odom : L.Odom

/-- Constructor `NodeData::NodeData`: member initialisers of the struct and
the assignments of the constructor body. -/
def NodeData.new (L : Lib) (p : Params L) : NodeData L where
  data_max_depth_ := p.data_max_depth
  cloud_max_depth_ := p.cloud_max_depth
  motion_ := L.motionNew p.motion_alpha
  odom_ := p.odom
  frame_ := p.fix_frame
  curr_imu_msg_ := ⟨0, L.vecZero, L.quatZero⟩
  prev_imu_msg_ := ⟨0, L.vecZero, L.quatZero⟩
  curr_enc_msg_ := ⟨0, L.vecZero, 0, 0, 0⟩
  prev_enc_msg_ := ⟨0, L.vecZero, 0, 0, 0⟩
  prev_time := -1
  flag := 0
  cnt := 0
  use_depth := p.use_depth
  use_imu := p.use_imu
  use_odom := p.use_odom
  received_imu := false
  received_odom := false
  dT_pred := L.se3Id
  T_c0_c_gt := L.se3Id
  pred_init := false
  tw_vel := L.vecZero
  prev_msg_time := 0
  imu_pred_pose := L.se3Id
  acc_pose := L.se3Id

variable {L : Lib}

/-- Handler `NodeData::imuCallback`. -/
def imuCallback (s : NodeData L) (msgImu : Imu L.Vec L.Quat) : NodeData L × List (Effect L) :=
  let s := { s with curr_imu_msg_ := msgImu }
  let s := if !s.received_imu then
      { s with prev_imu_msg_ := msgImu, received_imu := true }
    else s
  if !s.pred_init then
    ({ s with prev_msg_time := msgImu.stamp, pred_init := true }, [])
  -- If the current imu message is late, ignore it
  else if msgImu.stamp < s.prev_msg_time then
    (s, [])
  else
    -- Get the delta time to integrate over
    let dtime : Duration := Time.sub msgImu.stamp s.prev_msg_time
    let s := { s with prev_msg_time := msgImu.stamp }
    let imu_ang_vel := msgImu.angular_velocity
    let deltapose := L.se3Mk (L.so3Exp (L.vecScale imu_ang_vel dtime.toSec))
      (L.vecScale s.tw_vel dtime.toSec)
    let s := { s with imu_pred_pose := L.se3Mul s.imu_pred_pose deltapose }
    let s := { s with acc_pose := L.se3Mul s.acc_pose deltapose }
    (s, [Effect.imuOdomPublish msgImu.stamp s.acc_pose])

/-- Handler `NodeData::odomCallback`. -/
def odomCallback (s : NodeData L) (msgEnc : Odometry L.Vec) : NodeData L × List (Effect L) :=
  let s := { s with curr_enc_msg_ := msgEnc }
  let s := if !s.received_odom then
      { s with prev_enc_msg_ := msgEnc, received_odom := true }
    else s
  -- Set the current linear velocity
  ({ s with tw_vel := msgEnc.linear }, [])

/-- Method `NodeData::getPrediction`: the node afterwards and the values left
in `pred_x`, `pred_y`, `pred_z`, `pred_a`. -/
def getPrediction (s : NodeData L) : NodeData L × ℚ × ℚ × ℚ × ℚ :=
  let r1 : NodeData L × ℚ × ℚ × ℚ :=
    if s.use_odom && s.received_odom then
      ({ s with prev_enc_msg_ := s.curr_enc_msg_ },
        s.curr_enc_msg_.position_x - s.prev_enc_msg_.position_x,
        s.curr_enc_msg_.position_y - s.prev_enc_msg_.position_y,
        s.curr_enc_msg_.position_z - s.prev_enc_msg_.position_z)
    else (s, 0, 0, 0)
  let s := r1.1
  let r2 : NodeData L × ℚ :=
    if s.use_imu && s.received_imu then
      let pred_a := L.getYaw s.curr_imu_msg_.orientation - L.getYaw s.prev_imu_msg_.orientation
      let pred_a :=
        if pred_a ≥ L.M_PI then pred_a - 2 * L.M_PI
        else if pred_a < -L.M_PI then pred_a + 2 * L.M_PI
        else pred_a
      ({ s with prev_imu_msg_ := s.curr_imu_msg_ }, pred_a)
    else (s, 0)
  (r2.1, r1.2.1, r1.2.2.1, r1.2.2.2, r2.2)

/-- Method `NodeData::SendTransform`, called with the message returned by
`odom_pub_.Publish(stamp, pose)`. -/
def SendTransform (stamp : Time) (pose : L.SE3) (child_frame : String) : List (Effect L) :=
  [Effect.sendTransform stamp pose child_frame]

/-- Method `NodeData::PublishOdom`. -/
def PublishOdom (s : NodeData L) (header : Header) (Twc : L.SE3) : List (Effect L) :=
  [Effect.odomPublish header.stamp Twc]
    ++ SendTransform header.stamp Twc "camera"
    ++ [Effect.poseArrayPublish header.frame_id header.stamp (L.getAllPoses s.odom_)]

/-- Method `NodeData::PublishCloud`; `numSubscribers` is what
`points_pub_.getNumSubscribers()` returns at the call. -/
def PublishCloud (s : NodeData L) (header : Header) (numSubscribers : Nat) : List (Effect L) :=
  if numSubscribers = 0 then []
  else
    [Effect.log LogLevel.debug,
      -- Publish in camera frame for straightforward mapping later
      Effect.pointsPublish "camera" header.stamp 16
        (L.keyframe2CloudCameraFrame s.odom_ s.cloud_max_depth_)]

/-- Lines 345-356 of `NodeData::Run`: initialise the integrator clock on the
first message and integrate the encoder velocity up to the frame timestamp. -/
def Run.integrate (s : NodeData L) (timestamp : Time) : NodeData L :=
  let s := if !s.pred_init then
      { s with prev_msg_time := timestamp, pred_init := true }
    else s
  if timestamp > s.prev_msg_time then
    -- integrate further to close the time gap
    let dtime : Duration := Time.sub timestamp s.prev_msg_time
    let s := { s with prev_msg_time := timestamp }
    let deltapose := L.se3Mk L.so3Id (L.vecScale s.tw_vel dtime.toSec)
    let s := { s with imu_pred_pose := L.se3Mul s.imu_pred_pose deltapose }
    { s with acc_pose := L.se3Mul s.acc_pose deltapose }
  -- ELSE use the pose diff as it is, don't update the last timestamp
  else s

/-- Lines 362-373 of `NodeData::Run`: the node afterwards, the local `dt`, and
the call made on the motion model. -/
def Run.predict (s : NodeData L) (timestamp_sec : ℚ) : NodeData L × ℚ × List (Effect L) :=
  if s.prev_time < 0 then
    ({ s with
        motion_ := L.motionInit s.motion_ s.T_c0_c_gt
        prev_time := timestamp_sec
        -- flag is set to 1 only for the first iteration
        flag := 1 },
      0, [Effect.motionInit s.T_c0_c_gt])
  else
    let dt := timestamp_sec - s.prev_time
    let r := L.motionPredictDelta s.motion_ dt
    ({ s with prev_time := timestamp_sec, motion_ := r.2, dT_pred := r.1, flag := 0 },
      dt, [Effect.motionPredictDelta dt])

/-- Lines 408-413 of `NodeData::Run`: the depth image handed to the
estimator.  With `use_depth` set, `cv_ptrDepth->image` dereferences the
pointer; on a null pointer the behaviour is undefined (`none`). -/
def Run.depth (s : NodeData L) (cv_ptrDepth : Option (CvImage L.Mat)) : Option L.Mat :=
  if s.use_depth then
    match cv_ptrDepth with
    | none => none
    | some d =>
      let image_depth := L.convertTo d.image (1 / 1000)
      if s.data_max_depth_ > 0 then
        some (L.thresholdToZeroInv image_depth s.data_max_depth_)
      else some image_depth
  else some L.matEmpty

/-- Lines 415-446 of `NodeData::Run`: estimator call, motion-model update,
trajectory writer and publishers.  The counter `cnt` is a C++ `int`; it is
incremented without wrap-around here. -/
def Run.estimate (s : NodeData L) (image_l image_r image_depth : L.Mat) (dt : ℚ)
    (timestamp : Time) (numSubscribers : Nat) : NodeData L × List (Effect L) :=
  let r := L.estimate s.odom_ image_l image_r s.dT_pred image_depth
  let status := r.1
  let out := [Effect.estimate image_l image_r s.dT_pred image_depth status,
    Effect.log LogLevel.info]
  let s := { s with odom_ := r.2 }
  -- Motion model correct if tracking is ok and not first frame
  let m : L.Motion × List (Effect L) :=
    if status.track_ok && s.flag == 0 then
      (L.motionCorrect s.motion_ status.Twc dt, [Effect.motionCorrect status.Twc dt])
    else
      (L.motionScale s.motion_ (1 / 2), [Effect.log LogLevel.warn, Effect.motionScale (1 / 2)])
  let s := { s with motion_ := m.1 }
  let out := out ++ m.2
  -- Write to output
  let out := out ++ [Effect.writerWrite s.cnt status.Twc]
  let s := { s with cnt := s.cnt + 1 }
  let out := out ++ [Effect.log LogLevel.debug, Effect.log LogLevel.debug,
    Effect.log LogLevel.debug, Effect.log LogLevel.debug]
  -- publish stuff
  let header : Header := { frame_id := s.frame_, stamp := timestamp }
  let out := out ++ PublishOdom s header status.Twc
  let out := out ++ (if status.map_remove_kf then PublishCloud s header numSubscribers else [])
  (s, out)

/-- Method `NodeData::Run`; `none` is the undefined behaviour of `Run.depth`. -/
def Run (s : NodeData L) (cv_ptrLeft cv_ptrRight : CvImage L.Mat) (timestamp : Time)
    (cv_ptrDepth : Option (CvImage L.Mat)) (numSubscribers : Nat) :
    Option (NodeData L × List (Effect L)) :=
  let timestamp_sec := timestamp.toSec
  let s := Run.integrate s timestamp
  let s := (getPrediction s).1
  let p := Run.predict s timestamp_sec
  let s := p.1
  let dt := p.2.1
  -- Reset the pose to Identity
  let s := { s with imu_pred_pose := L.se3Id }
  let image_l := cv_ptrLeft.image
  let image_r := cv_ptrRight.image
  match Run.depth s cv_ptrDepth with
  | none => none
  | some image_depth =>
    let e := Run.estimate s image_l image_r image_depth dt timestamp numSubscribers
    some (e.1, p.2.2 ++ e.2)

/-- Method `NodeData::StereoDepthCb`; `msgDepth = none` is the null pointer
passed by `StereoCb`. -/
def StereoDepthCb (s : NodeData L) (msgLeft msgRight : Image L.ImageData)
    (msgDepth : Option (Image L.ImageData)) (numSubscribers : Nat) :
    Option (NodeData L × List (Effect L)) :=
  match L.toCvShare msgLeft with
  | none => some (s, [Effect.log LogLevel.error])
  | some cv_ptrLeft =>
    match L.toCvShare msgRight with
    | none => some (s, [Effect.log LogLevel.error])
    | some cv_ptrRight =>
      match msgDepth with
      | some msgDepth =>
        match L.toCvShare msgDepth with
        | none => some (s, [Effect.log LogLevel.error])
        | some cv_ptrDepth =>
          Run s cv_ptrLeft cv_ptrRight cv_ptrLeft.stamp (some cv_ptrDepth) numSubscribers
      | none => Run s cv_ptrLeft cv_ptrRight cv_ptrLeft.stamp none numSubscribers

/-- Method `NodeData::StereoCb`. -/
def StereoCb (s : NodeData L) (msgLeft msgRight : Image L.ImageData) (numSubscribers : Nat) :
    Option (NodeData L × List (Effect L)) :=
  StereoDepthCb s msgLeft msgRight none numSubscribers

/-- One callback invocation made by `ros::spin()`: an inertial sample, an
encoder sample, or a synchronized frame (`msgDepth = none` when the frame is
delivered through `StereoCb`), with the subscriber count of the `points`
topic at that moment. -/
inductive Event (L : Lib) where
  | imu (msgImu : Imu L.Vec L.Quat)
  | enc (msgEnc : Odometry L.Vec)
  | frame (msgLeft msgRight : Image L.ImageData) (msgDepth : Option (Image L.ImageData))
      (numSubscribers : Nat)

/-- Whether the event is an inertial sample. -/
def Event.isImu : Event L → Bool
  | .imu _ => true
  | _ => false

/-- Whether the event is an encoder sample. -/
def Event.isEnc : Event L → Bool
  | .enc _ => true
  | _ => false

/-- Whether the event is a synchronized frame. -/
def Event.isFrame : Event L → Bool
  | .frame _ _ _ _ => true
  | _ => false

/-- Wiring of `InitRosIO`: with `use_depth` the three-stream synchronizer
calls `StereoDepthCb` with a depth image, otherwise the two-stream
synchronizer calls `StereoCb`. -/
def Event.wired (use_depth : Bool) : Event L → Bool
  | .frame _ _ d _ => d.isSome == use_depth
  | _ => true

/-- The handler `ros::spin()` runs for one event, to completion. -/
def handle (s : NodeData L) : Event L → Option (NodeData L × List (Effect L))
  | .imu msgImu => some (imuCallback s msgImu)
  | .enc msgEnc => some (odomCallback s msgEnc)
  | .frame msgLeft msgRight none n => StereoCb s msgLeft msgRight n
  | .frame msgLeft msgRight (some msgDepth) n =>
    StereoDepthCb s msgLeft msgRight (some msgDepth) n

/-- The single-threaded event loop `ros::spin()`: the handlers of the events
run one after the other; the result is the final node and all calls made. -/
def runEvents (s : NodeData L) : List (Event L) → Option (NodeData L × List (Effect L))
  | [] => some (s, [])
  | e :: es =>
    match handle s e with
    | none => none
    | some r1 =>
      match runEvents r1.1 es with
      | none => none
      | some r2 => some (r2.1, r1.2 ++ r2.2)

/-- Statuses returned by the estimator calls of a log. -/
def estimates : List (Effect L) → List (OdomStatus L.SE3)
  | [] => []
  | Effect.estimate _ _ _ _ st :: es => st :: estimates es
  | _ :: es => estimates es

/-- Arguments of the `motion_.Correct` calls of a log. -/
def corrects : List (Effect L) → List (L.SE3 × ℚ)
  | [] => []
  | Effect.motionCorrect T dt :: es => (T, dt) :: corrects es
  | _ :: es => corrects es

/-- Arguments of the `motion_.Scale` calls of a log. -/
def scales : List (Effect L) → List ℚ
  | [] => []
  | Effect.motionScale f :: es => f :: scales es
  | _ :: es => scales es

/-- Timestamps of the clouds published in a log. -/
def cloudStamps : List (Effect L) → List Time
  | [] => []
  | Effect.pointsPublish _ t _ _ :: es => t :: cloudStamps es
  | _ :: es => cloudStamps es

/-- Whether the call emits an output message (odometry, transform,
trajectory, cloud, or inertial prediction). -/
def Effect.isOutput : Effect L → Bool
  | .odomPublish _ _ => true
  | .sendTransform _ _ _ => true
  | .poseArrayPublish _ _ _ => true
  | .pointsPublish _ _ _ _ => true
  | .imuOdomPublish _ _ => true
  | _ => false

/-! ### The dead-reckoning contract, stated over the arrival history -/

/-- Timestamp of an inertial sample, `none` for other events. -/
def Event.imuStamp : Event L → Option Time
  | .imu msgImu => some msgImu.stamp
  | _ => none

/-- Timestamp of the most recent inertial sample of a history (events in
arrival order), if there is one. -/
def lastImuStamp : List (Event L) → Option Time
  | [] => none
  | e :: es =>
    match lastImuStamp es with
    | some t => some t
    | none => e.imuStamp

/-- Linear velocity of the most recent encoder sample of a history (events in
arrival order), zero when there is none. -/
def lastEncVelocity : List (Event L) → L.Vec
  | [] => L.vecZero
  | e :: es =>
    if es.any Event.isEnc then lastEncVelocity es
    else
      match e with
      | .enc msgEnc => msgEnc.linear
      | _ => L.vecZero

/-- The delta transform `(exp(omega * dt), v * dt)` an inertial sample
contributes after the history `pre`: `dt` is the time since the previous
inertial sample and `v` the velocity of the most recent encoder sample.  The
first inertial sample, and every other kind of event, contributes none. -/
def sampleDelta (pre : List (Event L)) : Event L → Option L.SE3
  | .imu msgImu =>
    match lastImuStamp pre with
    | none => none
    | some tprev =>
      let dt := (Time.sub msgImu.stamp tprev).toSec
      some (L.se3Mk (L.so3Exp (L.vecScale msgImu.angular_velocity dt))
        (L.vecScale (lastEncVelocity pre) dt))
  | _ => none

/-- The per-sample deltas of the events `rest` arriving after the history
`pre`, in arrival order. -/
def sampleDeltasFrom (pre : List (Event L)) : List (Event L) → List L.SE3
  | [] => []
  | e :: rest => (sampleDelta pre e).toList ++ sampleDeltasFrom (pre ++ [e]) rest

/-- The per-sample deltas of a whole arrival sequence. -/
def sampleDeltas (evs : List (Event L)) : List L.SE3 :=
  sampleDeltasFrom [] evs

/-- Right-composition of transforms in list order onto a starting pose:
`((start * d1) * d2) * ...`. -/
def rightCompose (L : Lib) (start : L.SE3) (deltas : List L.SE3) : L.SE3 :=
  deltas.foldl L.se3Mul start

/-- Laws of rigid transforms used for the translation part: the identity has
zero translation, scaling the zero vector gives the zero vector,
`(R_a, t_a) * (R, 0) = (R_a R, t_a + R_a 0)` has translation `t_a`, and
`(identity, 0)` is a right unit. -/
structure TranslationLaws (L : Lib) : Prop where
  translation_id : L.translation L.se3Id = L.vecZero
  vecScale_zero : ∀ q : ℚ, L.vecScale L.vecZero q = L.vecZero
  translation_mul_mk_zero :
    ∀ (a : L.SE3) (r : L.SO3), L.translation (L.se3Mul a (L.se3Mk r L.vecZero)) = L.translation a
  mul_mk_id_zero : ∀ a : L.SE3, L.se3Mul a (L.se3Mk L.so3Id L.vecZero) = a

/-! ### A small exact instance of the library interface

Vectors are rational triples and rotations are quarter turns about the z
axis, composed as rigid transforms; images are numbered and the estimator
reads its status off the image numbers. -/

namespace Planar

/-- Rotation of a vector by `k` quarter turns about the z axis. -/
def rotate (k : Fin 4) (v : ℚ × ℚ × ℚ) : ℚ × ℚ × ℚ :=
  match k with
  | ⟨0, _⟩ => v
  | ⟨1, _⟩ => (-v.2.1, v.1, v.2.2)
  | ⟨2, _⟩ => (-v.1, -v.2.1, v.2.2)
  | _ => (v.2.1, -v.1, v.2.2)

/-- The library instance. -/
@[reducible]
def lib : Lib where
  Vec := ℚ × ℚ × ℚ
  SO3 := Fin 4
  SE3 := Fin 4 × (ℚ × ℚ × ℚ)
  Quat := ℚ
  Mat := Nat
  ImageData := Option Nat
  Motion := ℚ
  Odom := Nat
  Cloud := Nat
  vecZero := (0, 0, 0)
  vecScale := fun v q => (v.1 * q, v.2.1 * q, v.2.2 * q)
  so3Id := 0
  so3Exp := fun v => Fin.ofNat (Int.toNat (Int.floor v.2.2 % 4))
  se3Id := (0, (0, 0, 0))
  se3Mk := fun r v => (r, v)
  se3Mul := fun a b => (a.1 + b.1, a.2 + rotate a.1 b.2)
  translation := fun a => a.2
  quatZero := 0
  getYaw := fun q => q
  M_PI := 355 / 113
  matEmpty := 0
  convertTo := fun m _ => m
  thresholdToZeroInv := fun m _ => m
  toCvShare := fun msg => msg.data.map (fun m => ⟨msg.stamp, m⟩)
  motionNew := fun alpha => alpha
  motionInit := fun m _ => m
  motionPredictDelta := fun m dt => ((0, (m * dt, 0, 0)), m)
  motionCorrect := fun m _ _ => m
  motionScale := fun m f => m * f
  estimate := fun o l r dT _ => (⟨l % 2 == 1, r % 2 == 1, dT⟩, o + 1)
  getAllPoses := fun _ => []
  keyframe2CloudCameraFrame := fun o _ => o

/-- Node parameters: stereo only, inertial and encoder streams enabled. -/
def params : Params lib where
  fix_frame := "fixed"
  use_imu := true
  use_odom := true
  use_depth := false
  data_max_depth := 0
  cloud_max_depth := 100
  motion_alpha := 1 / 2
  odom := 0

/-- A decodable image message: odd numbers make the estimator report success
(left image) and a removed keyframe (right image). -/
def img (stamp : Time) (n : Nat) : Image lib.ImageData := ⟨stamp, some n⟩

/-- An image message that `toCvShare` rejects. -/
def badImg (stamp : Time) : Image lib.ImageData := ⟨stamp, none⟩

/-- An inertial sample turning about z with angular velocity `w`. -/
def imuMsg (stamp : Time) (w : ℚ) : Imu lib.Vec lib.Quat := ⟨stamp, (0, 0, w), 0⟩

/-- An encoder sample moving along x with velocity `v`. -/
def encMsg (stamp : Time) (v : ℚ) : Odometry lib.Vec := ⟨stamp, (v, 0, 0), 0, 0, 0⟩

end Planar

/-- Until the integrator is initialised its clock is the default-constructed
`ros::Time`. -/
def ClockInv (s : NodeData L) : Prop := s.pred_init = false → s.prev_msg_time = 0

/-- No encoder velocity and no translation in either accumulator. -/
def ZeroInv (s : NodeData L) : Prop :=
  s.tw_vel = L.vecZero ∧ L.translation s.acc_pose = L.vecZero ∧
    L.translation s.imu_pred_pose = L.vecZero

/-- The integrator agrees with the arrival history `pre`: it is initialised
exactly when an inertial sample has arrived, its clock is the timestamp of
the last one, and `tw_vel` is the velocity of the last encoder sample. -/
def HistInv (pre : List (Event L)) (s : NodeData L) : Prop :=
  s.pred_init = (lastImuStamp pre).isSome ∧
    (∀ t, lastImuStamp pre = some t → s.prev_msg_time = t) ∧
    s.tw_vel = lastEncVelocity pre

/-- The frame clock agrees with the log: `prev_time` still has its initial
value `-1` while the estimator has never been called, and is a timestamp
(not negative) afterwards. -/
def FrameInv (o : List (Effect L)) (s : NodeData L) : Prop :=
  (estimates o = [] ∧ s.prev_time = -1) ∨ (estimates o ≠ [] ∧ 0 ≤ s.prev_time)

/-! ## Theorems -/

/-! ### Fields each stage of `Run` leaves alone -/

@[simp]
theorem getPrediction_acc_pose (s : NodeData L) : (getPrediction s).1.acc_pose = s.acc_pose := by
  unfold getPrediction
  dsimp only
  split_ifs <;> rfl

@[simp]
theorem getPrediction_prev_msg_time (s : NodeData L) : (getPrediction s).1.prev_msg_time = s.prev_msg_time := by
  unfold getPrediction
  dsimp only
  split_ifs <;> rfl

@[simp]
theorem getPrediction_tw_vel (s : NodeData L) : (getPrediction s).1.tw_vel = s.tw_vel := by
  unfold getPrediction
  dsimp only
  split_ifs <;> rfl

@[simp]
theorem getPrediction_pred_init (s : NodeData L) : (getPrediction s).1.pred_init = s.pred_init := by
  unfold getPrediction
  dsimp only
  split_ifs <;> rfl

@[simp]
theorem getPrediction_imu_pred_pose (s : NodeData L) : (getPrediction s).1.imu_pred_pose = s.imu_pred_pose := by
  unfold getPrediction
  dsimp only
  split_ifs <;> rfl

@[simp]
theorem getPrediction_use_depth (s : NodeData L) : (getPrediction s).1.use_depth = s.use_depth := by
  unfold getPrediction
  dsimp only
  split_ifs <;> rfl

@[simp]
theorem getPrediction_data_max_depth_ (s : NodeData L) : (getPrediction s).1.data_max_depth_ = s.data_max_depth_ := by
  unfold getPrediction
  dsimp only
  split_ifs <;> rfl

@[simp]
theorem getPrediction_prev_time (s : NodeData L) : (getPrediction s).1.prev_time = s.prev_time := by
  unfold getPrediction
  dsimp only
  split_ifs <;> rfl

@[simp]
theorem getPrediction_odom_ (s : NodeData L) : (getPrediction s).1.odom_ = s.odom_ := by
  unfold getPrediction
  dsimp only
  split_ifs <;> rfl

@[simp]
theorem getPrediction_motion_ (s : NodeData L) : (getPrediction s).1.motion_ = s.motion_ := by
  unfold getPrediction
  dsimp only
  split_ifs <;> rfl

@[simp]
theorem getPrediction_flag (s : NodeData L) : (getPrediction s).1.flag = s.flag := by
  unfold getPrediction
  dsimp only
  split_ifs <;> rfl

@[simp]
theorem getPrediction_dT_pred (s : NodeData L) : (getPrediction s).1.dT_pred = s.dT_pred := by
  unfold getPrediction
  dsimp only
  split_ifs <;> rfl

@[simp]
theorem getPrediction_cnt (s : NodeData L) : (getPrediction s).1.cnt = s.cnt := by
  unfold getPrediction
  dsimp only
  split_ifs <;> rfl

@[simp]
theorem getPrediction_frame_ (s : NodeData L) : (getPrediction s).1.frame_ = s.frame_ := by
  unfold getPrediction
  dsimp only
  split_ifs <;> rfl

@[simp]
theorem getPrediction_cloud_max_depth_ (s : NodeData L) : (getPrediction s).1.cloud_max_depth_ = s.cloud_max_depth_ := by
  unfold getPrediction
  dsimp only
  split_ifs <;> rfl

@[simp]
theorem getPrediction_T_c0_c_gt (s : NodeData L) : (getPrediction s).1.T_c0_c_gt = s.T_c0_c_gt := by
  unfold getPrediction
  dsimp only
  split_ifs <;> rfl

@[simp]
theorem Run.predict_acc_pose (s : NodeData L) (ts : ℚ) : (Run.predict s ts).1.acc_pose = s.acc_pose := by
  unfold Run.predict
  split_ifs <;> rfl

@[simp]
theorem Run.predict_prev_msg_time (s : NodeData L) (ts : ℚ) : (Run.predict s ts).1.prev_msg_time = s.prev_msg_time := by
  unfold Run.predict
  split_ifs <;> rfl

@[simp]
theorem Run.predict_tw_vel (s : NodeData L) (ts : ℚ) : (Run.predict s ts).1.tw_vel = s.tw_vel := by
  unfold Run.predict
  split_ifs <;> rfl

@[simp]
theorem Run.predict_pred_init (s : NodeData L) (ts : ℚ) : (Run.predict s ts).1.pred_init = s.pred_init := by
  unfold Run.predict
  split_ifs <;> rfl

@[simp]
theorem Run.predict_imu_pred_pose (s : NodeData L) (ts : ℚ) : (Run.predict s ts).1.imu_pred_pose = s.imu_pred_pose := by
  unfold Run.predict
  split_ifs <;> rfl

@[simp]
theorem Run.predict_use_depth (s : NodeData L) (ts : ℚ) : (Run.predict s ts).1.use_depth = s.use_depth := by
  unfold Run.predict
  split_ifs <;> rfl

@[simp]
theorem Run.predict_data_max_depth_ (s : NodeData L) (ts : ℚ) : (Run.predict s ts).1.data_max_depth_ = s.data_max_depth_ := by
  unfold Run.predict
  split_ifs <;> rfl

@[simp]
theorem Run.predict_odom_ (s : NodeData L) (ts : ℚ) : (Run.predict s ts).1.odom_ = s.odom_ := by
  unfold Run.predict
  split_ifs <;> rfl

@[simp]
theorem Run.predict_cnt (s : NodeData L) (ts : ℚ) : (Run.predict s ts).1.cnt = s.cnt := by
  unfold Run.predict
  split_ifs <;> rfl

@[simp]
theorem Run.predict_frame_ (s : NodeData L) (ts : ℚ) : (Run.predict s ts).1.frame_ = s.frame_ := by
  unfold Run.predict
  split_ifs <;> rfl

@[simp]
theorem Run.predict_cloud_max_depth_ (s : NodeData L) (ts : ℚ) : (Run.predict s ts).1.cloud_max_depth_ = s.cloud_max_depth_ := by
  unfold Run.predict
  split_ifs <;> rfl

@[simp]
theorem Run.predict_T_c0_c_gt (s : NodeData L) (ts : ℚ) : (Run.predict s ts).1.T_c0_c_gt = s.T_c0_c_gt := by
  unfold Run.predict
  split_ifs <;> rfl

@[simp]
theorem Run.estimate_acc_pose (s : NodeData L) (il ir im : L.Mat) (dt : ℚ) (t : Time) (n : Nat) :
    (Run.estimate s il ir im dt t n).1.acc_pose = s.acc_pose := rfl

@[simp]
theorem Run.estimate_prev_msg_time (s : NodeData L) (il ir im : L.Mat) (dt : ℚ) (t : Time) (n : Nat) :
    (Run.estimate s il ir im dt t n).1.prev_msg_time = s.prev_msg_time := rfl

@[simp]
theorem Run.estimate_tw_vel (s : NodeData L) (il ir im : L.Mat) (dt : ℚ) (t : Time) (n : Nat) :
    (Run.estimate s il ir im dt t n).1.tw_vel = s.tw_vel := rfl

@[simp]
theorem Run.estimate_pred_init (s : NodeData L) (il ir im : L.Mat) (dt : ℚ) (t : Time) (n : Nat) :
    (Run.estimate s il ir im dt t n).1.pred_init = s.pred_init := rfl

@[simp]
theorem Run.estimate_imu_pred_pose (s : NodeData L) (il ir im : L.Mat) (dt : ℚ) (t : Time) (n : Nat) :
    (Run.estimate s il ir im dt t n).1.imu_pred_pose = s.imu_pred_pose := rfl

@[simp]
theorem Run.estimate_use_depth (s : NodeData L) (il ir im : L.Mat) (dt : ℚ) (t : Time) (n : Nat) :
    (Run.estimate s il ir im dt t n).1.use_depth = s.use_depth := rfl

@[simp]
theorem Run.estimate_data_max_depth_ (s : NodeData L) (il ir im : L.Mat) (dt : ℚ) (t : Time) (n : Nat) :
    (Run.estimate s il ir im dt t n).1.data_max_depth_ = s.data_max_depth_ := rfl

@[simp]
theorem Run.estimate_prev_time (s : NodeData L) (il ir im : L.Mat) (dt : ℚ) (t : Time) (n : Nat) :
    (Run.estimate s il ir im dt t n).1.prev_time = s.prev_time := rfl

@[simp]
theorem Run.estimate_flag (s : NodeData L) (il ir im : L.Mat) (dt : ℚ) (t : Time) (n : Nat) :
    (Run.estimate s il ir im dt t n).1.flag = s.flag := rfl

@[simp]
theorem Run.estimate_dT_pred (s : NodeData L) (il ir im : L.Mat) (dt : ℚ) (t : Time) (n : Nat) :
    (Run.estimate s il ir im dt t n).1.dT_pred = s.dT_pred := rfl

@[simp]
theorem Run.estimate_frame_ (s : NodeData L) (il ir im : L.Mat) (dt : ℚ) (t : Time) (n : Nat) :
    (Run.estimate s il ir im dt t n).1.frame_ = s.frame_ := rfl

@[simp]
theorem Run.estimate_cloud_max_depth_ (s : NodeData L) (il ir im : L.Mat) (dt : ℚ) (t : Time) (n : Nat) :
    (Run.estimate s il ir im dt t n).1.cloud_max_depth_ = s.cloud_max_depth_ := rfl

@[simp]
theorem Run.estimate_T_c0_c_gt (s : NodeData L) (il ir im : L.Mat) (dt : ℚ) (t : Time) (n : Nat) :
    (Run.estimate s il ir im dt t n).1.T_c0_c_gt = s.T_c0_c_gt := rfl

@[simp]
theorem Run.integrate_tw_vel (s : NodeData L) (t : Time) : (Run.integrate s t).tw_vel = s.tw_vel := by
  unfold Run.integrate
  dsimp only
  split_ifs <;> rfl

@[simp]
theorem Run.integrate_use_depth (s : NodeData L) (t : Time) : (Run.integrate s t).use_depth = s.use_depth := by
  unfold Run.integrate
  dsimp only
  split_ifs <;> rfl

@[simp]
theorem Run.integrate_data_max_depth_ (s : NodeData L) (t : Time) : (Run.integrate s t).data_max_depth_ = s.data_max_depth_ := by
  unfold Run.integrate
  dsimp only
  split_ifs <;> rfl

@[simp]
theorem Run.integrate_prev_time (s : NodeData L) (t : Time) : (Run.integrate s t).prev_time = s.prev_time := by
  unfold Run.integrate
  dsimp only
  split_ifs <;> rfl

@[simp]
theorem Run.integrate_odom_ (s : NodeData L) (t : Time) : (Run.integrate s t).odom_ = s.odom_ := by
  unfold Run.integrate
  dsimp only
  split_ifs <;> rfl

@[simp]
theorem Run.integrate_motion_ (s : NodeData L) (t : Time) : (Run.integrate s t).motion_ = s.motion_ := by
  unfold Run.integrate
  dsimp only
  split_ifs <;> rfl

@[simp]
theorem Run.integrate_flag (s : NodeData L) (t : Time) : (Run.integrate s t).flag = s.flag := by
  unfold Run.integrate
  dsimp only
  split_ifs <;> rfl

@[simp]
theorem Run.integrate_dT_pred (s : NodeData L) (t : Time) : (Run.integrate s t).dT_pred = s.dT_pred := by
  unfold Run.integrate
  dsimp only
  split_ifs <;> rfl

@[simp]
theorem Run.integrate_cnt (s : NodeData L) (t : Time) : (Run.integrate s t).cnt = s.cnt := by
  unfold Run.integrate
  dsimp only
  split_ifs <;> rfl

@[simp]
theorem Run.integrate_frame_ (s : NodeData L) (t : Time) : (Run.integrate s t).frame_ = s.frame_ := by
  unfold Run.integrate
  dsimp only
  split_ifs <;> rfl

@[simp]
theorem Run.integrate_cloud_max_depth_ (s : NodeData L) (t : Time) : (Run.integrate s t).cloud_max_depth_ = s.cloud_max_depth_ := by
  unfold Run.integrate
  dsimp only
  split_ifs <;> rfl

@[simp]
theorem Run.integrate_T_c0_c_gt (s : NodeData L) (t : Time) : (Run.integrate s t).T_c0_c_gt = s.T_c0_c_gt := by
  unfold Run.integrate
  dsimp only
  split_ifs <;> rfl

@[simp]
theorem Run.integrate_pred_init (s : NodeData L) (t : Time) :
    (Run.integrate s t).pred_init = true := by
  unfold Run.integrate
  by_cases h : s.pred_init = true
  · simp only [h, Bool.not_true, Bool.false_eq_true, if_false]
    split_ifs <;> simp [h]
  · simp only [Bool.not_eq_true] at h
    simp only [h, Bool.not_false, if_true]
    split_ifs <;> rfl

@[simp]
theorem Run.predict_prev_time (s : NodeData L) (ts : ℚ) : (Run.predict s ts).1.prev_time = ts := by
  unfold Run.predict
  split_ifs <;> rfl

theorem Run.depth_congr (s1 s2 : NodeData L) (d : Option (CvImage L.Mat))
    (h1 : s1.use_depth = s2.use_depth) (h2 : s1.data_max_depth_ = s2.data_max_depth_) :
    Run.depth s1 d = Run.depth s2 d := by
  unfold Run.depth
  rw [h1, h2]

theorem Run.depth_isSome (s : NodeData L) (d : Option (CvImage L.Mat))
    (hd : s.use_depth = true → d.isSome = true) : ∃ m, Run.depth s d = some m := by
  unfold Run.depth
  by_cases hu : s.use_depth = true
  · obtain ⟨c, rfl⟩ := Option.isSome_iff_exists.mp (hd hu)
    simp only [hu, if_true]
    split_ifs <;> exact ⟨_, rfl⟩
  · simp [hu]

/-- The node as `Run` hands it to the estimator stage. -/
theorem Run_eq (s : NodeData L) (l r : CvImage L.Mat) (t : Time)
    (d : Option (CvImage L.Mat)) (n : Nat) :
    Run s l r t d n =
      (Run.depth s d).map (fun m =>
        ((Run.estimate
            { (Run.predict (getPrediction (Run.integrate s t)).1 t.toSec).1 with
              imu_pred_pose := L.se3Id }
            l.image r.image m (Run.predict (getPrediction (Run.integrate s t)).1 t.toSec).2.1
            t n).1,
          (Run.predict (getPrediction (Run.integrate s t)).1 t.toSec).2.2 ++
          (Run.estimate
            { (Run.predict (getPrediction (Run.integrate s t)).1 t.toSec).1 with
              imu_pred_pose := L.se3Id }
            l.image r.image m (Run.predict (getPrediction (Run.integrate s t)).1 t.toSec).2.1
            t n).2)) := by
  have hc : Run.depth ({ (Run.predict (getPrediction (Run.integrate s t)).1 t.toSec).1 with
      imu_pred_pose := L.se3Id }) d = Run.depth s d := by
    apply Run.depth_congr <;> simp
  unfold Run
  simp only [hc]
  cases Run.depth s d <;> rfl

/-- What a completed `Run` leaves in the fields of the integrator and of the
frame clock. -/
theorem Run_fields {s s' : NodeData L} {l r : CvImage L.Mat} {t : Time}
    {d : Option (CvImage L.Mat)} {n : Nat} {out : List (Effect L)}
    (h : Run s l r t d n = some (s', out)) :
    s'.acc_pose = (Run.integrate s t).acc_pose ∧
    s'.prev_msg_time = (Run.integrate s t).prev_msg_time ∧
    s'.tw_vel = s.tw_vel ∧ s'.pred_init = true ∧ s'.imu_pred_pose = L.se3Id ∧
    s'.use_depth = s.use_depth ∧ s'.data_max_depth_ = s.data_max_depth_ ∧
    s'.prev_time = t.toSec := by
  rw [Run_eq] at h
  cases hm : Run.depth s d with
  | none => simp [hm] at h
  | some m =>
    simp only [hm, Option.map_some', Option.some.injEq, Prod.mk.injEq] at h
    obtain ⟨h1, -⟩ := h
    subst h1
    simp

theorem Run_total (s : NodeData L) (l r : CvImage L.Mat) (t : Time)
    (d : Option (CvImage L.Mat)) (n : Nat) (hd : s.use_depth = true → d.isSome = true) :
    ∃ s' out, Run s l r t d n = some (s', out) := by
  obtain ⟨m, hm⟩ := Run.depth_isSome s d hd
  rw [Run_eq, hm]
  exact ⟨_, _, rfl⟩

/-! ### Out-of-order inertial samples -/

/-- C2: in a node whose integrator is initialised (`pred_init` true), an
inertial sample stamped strictly earlier than `prev_msg_time` leaves
`acc_pose`, `imu_pred_pose` and `prev_msg_time` as they were, and
`imuCallback` publishes nothing. -/
theorem imuCallback_out_of_order (s : NodeData L) (msgImu : Imu L.Vec L.Quat)
    (hinit : s.pred_init = true) (hlate : msgImu.stamp < s.prev_msg_time) :
    (imuCallback s msgImu).1.acc_pose = s.acc_pose ∧
    (imuCallback s msgImu).1.imu_pred_pose = s.imu_pred_pose ∧
    (imuCallback s msgImu).1.prev_msg_time = s.prev_msg_time ∧
    (imuCallback s msgImu).2 = [] := by
  unfold imuCallback
  by_cases hr : s.received_imu = true <;> simp [hr, hinit, hlate]

/-- C2 at a concrete node: after a first sample stamped 10, a sample stamped 5
is dropped. -/
theorem imuCallback_out_of_order_witness :
    (imuCallback (imuCallback (NodeData.new Planar.lib Planar.params) (Planar.imuMsg 10 1)).1
        (Planar.imuMsg 5 1)).1.prev_msg_time = 10 ∧
    (imuCallback (imuCallback (NodeData.new Planar.lib Planar.params) (Planar.imuMsg 10 1)).1
        (Planar.imuMsg 5 1)).2 = [] :=
  have h := imuCallback_out_of_order
    (imuCallback (NodeData.new Planar.lib Planar.params) (Planar.imuMsg 10 1)).1
    (Planar.imuMsg 5 1) (by decide) (by decide)
  ⟨h.2.2.1, h.2.2.2⟩

/-! ### Decode failures -/

/-- C5: when `toCvShare` fails on the left image, on the right image, or on
the depth image of a frame that has one, `StereoDepthCb` returns with the
node exactly as it was; the only call it makes is the error log, so the
estimator is not invoked and no output is emitted. -/
theorem StereoDepthCb_decode_failure (s : NodeData L) (msgLeft msgRight : Image L.ImageData)
    (msgDepth : Option (Image L.ImageData)) (n : Nat)
    (hfail : L.toCvShare msgLeft = none ∨ L.toCvShare msgRight = none ∨
      ∃ m, msgDepth = some m ∧ L.toCvShare m = none) :
    ∃ out, StereoDepthCb s msgLeft msgRight msgDepth n = some (s, out) ∧
      out = [Effect.log LogLevel.error] ∧ estimates out = [] ∧
      ∀ e ∈ out, e.isOutput = false := by
  refine ⟨[Effect.log LogLevel.error], ?_, rfl, rfl, ?_⟩
  · unfold StereoDepthCb
    rcases hfail with h | h | ⟨m, rfl, h⟩
    · simp [h]
    · cases hl : L.toCvShare msgLeft <;> simp [h]
    · cases hl : L.toCvShare msgLeft <;> cases hr : L.toCvShare msgRight <;> simp [h]
  · intro e he
    simp only [List.mem_singleton] at he
    subst he
    rfl

/-- C5 at a concrete frame: the right image of a stereo frame does not decode. -/
theorem StereoDepthCb_decode_failure_witness :
    ∃ out, StereoDepthCb (NodeData.new Planar.lib Planar.params) (Planar.img 10 1)
        (Planar.badImg 10) none 1 = some (NodeData.new Planar.lib Planar.params, out) ∧
      out = [Effect.log LogLevel.error] ∧ estimates out = [] ∧
      ∀ e ∈ out, e.isOutput = false :=
  StereoDepthCb_decode_failure (NodeData.new Planar.lib Planar.params) (Planar.img 10 1)
    (Planar.badImg 10) none 1 (Or.inr (Or.inl rfl))

/-! ### Gap closing at frame arrival -/

/-- C8: in an initialised node (`pred_init` true), `Run` on a frame stamped
`t` later than `prev_msg_time` right-multiplies `acc_pose` by the
translation-only delta `(identity, tw_vel * (t - prev_msg_time))` and sets
`prev_msg_time` to `t`; on a frame stamped no later than `prev_msg_time` it
leaves both as they were. -/
theorem Run_gap_closing (s : NodeData L) (l r : CvImage L.Mat) (t : Time)
    (d : Option (CvImage L.Mat)) (n : Nat) (hinit : s.pred_init = true)
    (hd : s.use_depth = true → d.isSome = true) :
    ∃ s' out, Run s l r t d n = some (s', out) ∧
      (s.prev_msg_time < t →
        s'.acc_pose = L.se3Mul s.acc_pose
          (L.se3Mk L.so3Id (L.vecScale s.tw_vel (Time.sub t s.prev_msg_time).toSec)) ∧
        s'.prev_msg_time = t) ∧
      (¬ s.prev_msg_time < t →
        s'.acc_pose = s.acc_pose ∧ s'.prev_msg_time = s.prev_msg_time) := by
  obtain ⟨s', out, h⟩ := Run_total s l r t d n hd
  obtain ⟨ha, hp, -⟩ := Run_fields h
  refine ⟨s', out, h, ?_, ?_⟩
  · intro hlt
    rw [ha, hp]
    unfold Run.integrate
    simp [hinit, hlt]
  · intro hge
    rw [ha, hp]
    unfold Run.integrate
    simp [hinit, hge]

/-- C8 at a concrete node: the integrator clock is at 10 and a stereo frame
stamped 30 arrives. -/
theorem Run_gap_closing_witness :
    ∃ s' out, Run (imuCallback (NodeData.new Planar.lib Planar.params) (Planar.imuMsg 10 1)).1
        ⟨30, 1⟩ ⟨30, 1⟩ 30 none 1 = some (s', out) ∧ s'.prev_msg_time = 30 :=
  have h := Run_gap_closing
    (imuCallback (NodeData.new Planar.lib Planar.params) (Planar.imuMsg 10 1)).1
    ⟨30, 1⟩ ⟨30, 1⟩ 30 none 1 (by decide) (by decide)
  h.elim fun s' h2 => h2.elim fun out h3 => ⟨s', out, h3.1, (h3.2.1 (by decide)).2⟩

/-! ### Handlers and the event loop -/

theorem StereoDepthCb_cases {s s' : NodeData L} {msgLeft msgRight : Image L.ImageData}
    {msgDepth : Option (Image L.ImageData)} {n : Nat} {out : List (Effect L)}
    (h : StereoDepthCb s msgLeft msgRight msgDepth n = some (s', out)) :
    (s' = s ∧ out = [Effect.log LogLevel.error]) ∨
    ∃ cl cr cd, L.toCvShare msgLeft = some cl ∧ Run s cl cr cl.stamp cd n = some (s', out) := by
  unfold StereoDepthCb at h
  cases hl : L.toCvShare msgLeft with
  | none =>
    simp only [hl, Option.some.injEq, Prod.mk.injEq] at h
    exact Or.inl ⟨h.1.symm, h.2.symm⟩
  | some cl =>
    cases hr : L.toCvShare msgRight with
    | none =>
      simp only [hl, hr, Option.some.injEq, Prod.mk.injEq] at h
      exact Or.inl ⟨h.1.symm, h.2.symm⟩
    | some cr =>
      cases msgDepth with
      | none =>
        simp only [hl, hr] at h
        exact Or.inr ⟨cl, cr, none, rfl, h⟩
      | some md =>
        cases hdd : L.toCvShare md with
        | none =>
          simp only [hl, hr, hdd, Option.some.injEq, Prod.mk.injEq] at h
          exact Or.inl ⟨h.1.symm, h.2.symm⟩
        | some cd =>
          simp only [hl, hr, hdd] at h
          exact Or.inr ⟨cl, cr, some cd, rfl, h⟩

theorem StereoDepthCb_total (s : NodeData L) (msgLeft msgRight : Image L.ImageData)
    (msgDepth : Option (Image L.ImageData)) (n : Nat)
    (hd : s.use_depth = true → msgDepth.isSome = true) :
    ∃ s' out, StereoDepthCb s msgLeft msgRight msgDepth n = some (s', out) := by
  unfold StereoDepthCb
  cases hl : L.toCvShare msgLeft with
  | none => exact ⟨_, _, rfl⟩
  | some cl =>
    cases hr : L.toCvShare msgRight with
    | none => exact ⟨_, _, rfl⟩
    | some cr =>
      cases msgDepth with
      | none => exact Run_total s cl cr cl.stamp none n (by simpa using hd)
      | some md =>
        cases hdd : L.toCvShare md with
        | none =>
          simp only [hdd]
          exact ⟨_, _, rfl⟩
        | some cd =>
          simp only [hdd]
          exact Run_total s cl cr cl.stamp (some cd) n (by simp)

@[simp]
theorem imuCallback_use_depth (s : NodeData L) (m : Imu L.Vec L.Quat) :
    (imuCallback s m).1.use_depth = s.use_depth := by
  unfold imuCallback
  dsimp only
  split_ifs <;> rfl

@[simp]
theorem imuCallback_tw_vel (s : NodeData L) (m : Imu L.Vec L.Quat) :
    (imuCallback s m).1.tw_vel = s.tw_vel := by
  unfold imuCallback
  dsimp only
  split_ifs <;> rfl

@[simp]
theorem imuCallback_prev_time (s : NodeData L) (m : Imu L.Vec L.Quat) :
    (imuCallback s m).1.prev_time = s.prev_time := by
  unfold imuCallback
  dsimp only
  split_ifs <;> rfl

@[simp]
theorem imuCallback_pred_init (s : NodeData L) (m : Imu L.Vec L.Quat) :
    (imuCallback s m).1.pred_init = true := by
  unfold imuCallback
  dsimp only
  split_ifs <;> simp_all

@[simp]
theorem odomCallback_use_depth (s : NodeData L) (m : Odometry L.Vec) :
    (odomCallback s m).1.use_depth = s.use_depth := by
  unfold odomCallback
  dsimp only
  split_ifs <;> rfl

@[simp]
theorem odomCallback_pred_init (s : NodeData L) (m : Odometry L.Vec) :
    (odomCallback s m).1.pred_init = s.pred_init := by
  unfold odomCallback
  dsimp only
  split_ifs <;> rfl

@[simp]
theorem odomCallback_prev_msg_time (s : NodeData L) (m : Odometry L.Vec) :
    (odomCallback s m).1.prev_msg_time = s.prev_msg_time := by
  unfold odomCallback
  dsimp only
  split_ifs <;> rfl

@[simp]
theorem odomCallback_acc_pose (s : NodeData L) (m : Odometry L.Vec) :
    (odomCallback s m).1.acc_pose = s.acc_pose := by
  unfold odomCallback
  dsimp only
  split_ifs <;> rfl

@[simp]
theorem odomCallback_imu_pred_pose (s : NodeData L) (m : Odometry L.Vec) :
    (odomCallback s m).1.imu_pred_pose = s.imu_pred_pose := by
  unfold odomCallback
  dsimp only
  split_ifs <;> rfl

@[simp]
theorem odomCallback_prev_time (s : NodeData L) (m : Odometry L.Vec) :
    (odomCallback s m).1.prev_time = s.prev_time := by
  unfold odomCallback
  dsimp only
  split_ifs <;> rfl

@[simp]
theorem odomCallback_tw_vel (s : NodeData L) (m : Odometry L.Vec) :
    (odomCallback s m).1.tw_vel = m.linear := by
  unfold odomCallback
  dsimp only

@[simp]
theorem odomCallback_out (s : NodeData L) (m : Odometry L.Vec) :
    (odomCallback s m).2 = [] := rfl

theorem handle_total (s : NodeData L) (e : Event L) (hw : e.wired s.use_depth = true) :
    ∃ s' out, handle s e = some (s', out) := by
  cases e with
  | imu m => exact ⟨_, _, rfl⟩
  | enc m => exact ⟨_, _, rfl⟩
  | frame l r d n =>
    cases d with
    | none =>
      show ∃ s' out, StereoDepthCb s l r none n = some (s', out)
      apply StereoDepthCb_total
      intro hu
      simp [Event.wired, hu] at hw
    | some md => exact StereoDepthCb_total s l r (some md) n (by simp)

theorem handle_use_depth {s s' : NodeData L} {e : Event L} {out : List (Effect L)}
    (h : handle s e = some (s', out)) : s'.use_depth = s.use_depth := by
  cases e with
  | imu m =>
    simp only [handle, Option.some.injEq] at h
    have hs : s' = (imuCallback s m).1 := by rw [h]
    rw [hs]
    simp
  | enc m =>
    simp only [handle, Option.some.injEq] at h
    have hs : s' = (odomCallback s m).1 := by rw [h]
    rw [hs]
    simp
  | frame l r d n =>
    have h' : StereoDepthCb s l r d n = some (s', out) := by
      cases d <;> exact h
    rcases StereoDepthCb_cases h' with ⟨rfl, -⟩ | ⟨cl, cr, cd, -, hrun⟩
    · rfl
    · exact (Run_fields hrun).2.2.2.2.2.1

/-- Splitting a run of the event loop at its first event. -/
theorem runEvents_cons {s s' : NodeData L} {e : Event L} {es : List (Event L)}
    {out : List (Effect L)} (h : runEvents s (e :: es) = some (s', out)) :
    ∃ s1 o1 o2, handle s e = some (s1, o1) ∧ runEvents s1 es = some (s', o2) ∧
      out = o1 ++ o2 := by
  simp only [runEvents] at h
  cases h1 : handle s e with
  | none => simp [h1] at h
  | some r1 =>
    cases h2 : runEvents r1.1 es with
    | none => simp [h1, h2] at h
    | some r2 =>
      simp only [h1, h2, Option.some.injEq, Prod.mk.injEq] at h
      exact ⟨r1.1, r1.2, r2.2, rfl, by rw [h2, ← h.1], h.2.symm⟩

/-- A property that the handler of every event of a class `Q` preserves holds
after every run of the event loop over events of that class. -/
theorem runEvents_invariant_on (P : NodeData L → Prop) (Q : Event L → Prop)
    (hstep : ∀ s e s' o, Q e → P s → handle s e = some (s', o) → P s') :
    ∀ (evs : List (Event L)) (s s' : NodeData L) (out : List (Effect L)),
      (∀ e ∈ evs, Q e) → P s → runEvents s evs = some (s', out) → P s' := by
  intro evs
  induction evs with
  | nil =>
    intro s s' out _ hP h
    simp only [runEvents, Option.some.injEq, Prod.mk.injEq] at h
    exact h.1 ▸ hP
  | cons e es ih =>
    intro s s' out hQ hP h
    obtain ⟨s1, o1, o2, h1, h2, -⟩ := runEvents_cons h
    exact ih s1 s' o2 (fun x hx => hQ x (List.mem_cons_of_mem _ hx))
      (hstep s e s1 o1 (hQ e (List.mem_cons_self _ _)) hP h1) h2

/-- A property that every handler preserves holds after every run of the
event loop. -/
theorem runEvents_invariant (P : NodeData L → Prop)
    (hstep : ∀ s e s' o, P s → handle s e = some (s', o) → P s')
    (evs : List (Event L)) (s s' : NodeData L) (out : List (Effect L))
    (hP : P s) (h : runEvents s evs = some (s', out)) : P s' :=
  runEvents_invariant_on P (fun _ => True) (fun s e s' o _ => hstep s e s' o) evs s s' out
    (fun _ _ => trivial) hP h

theorem runEvents_use_depth {evs : List (Event L)} {s s' : NodeData L} {out : List (Effect L)}
    (h : runEvents s evs = some (s', out)) : s'.use_depth = s.use_depth :=
  runEvents_invariant (fun x => x.use_depth = s.use_depth)
    (fun _ _ _ _ hP hh => (handle_use_depth hh).trans hP) evs s s' out rfl h

/-- The event loop completes on every sequence of events that follows the
wiring of `InitRosIO`. -/
theorem runEvents_total (evs : List (Event L)) (s : NodeData L)
    (hw : ∀ e ∈ evs, e.wired s.use_depth = true) :
    ∃ s' out, runEvents s evs = some (s', out) := by
  induction evs generalizing s with
  | nil => exact ⟨_, _, rfl⟩
  | cons e es ih =>
    obtain ⟨s1, o1, h1⟩ := handle_total s e (hw e (List.mem_cons_self _ _))
    have hu := handle_use_depth h1
    obtain ⟨s2, o2, h2⟩ := ih s1 (fun x hx => by
      rw [hu]
      exact hw x (List.mem_cons_of_mem _ hx))
    refine ⟨s2, o1 ++ o2, ?_⟩
    simp [runEvents, h1, h2]

/-! ### The integrator clock -/

theorem imuCallback_clock (s : NodeData L) (m : Imu L.Vec L.Quat) (hI : ClockInv s) :
    s.prev_msg_time ≤ (imuCallback s m).1.prev_msg_time := by
  unfold imuCallback
  dsimp only
  by_cases hp : s.pred_init = true
  · by_cases hr : s.received_imu = true <;> by_cases hlt : m.stamp < s.prev_msg_time <;>
      simp [hp, hr, hlt]
    all_goals exact Nat.le_of_not_lt hlt
  · simp only [Bool.not_eq_true] at hp
    have h0 := hI hp
    by_cases hr : s.received_imu = true <;> simp [hp, hr, h0]

theorem Run.integrate_clock (s : NodeData L) (t : Time) (hI : ClockInv s) :
    s.prev_msg_time ≤ (Run.integrate s t).prev_msg_time := by
  unfold Run.integrate
  dsimp only
  by_cases hp : s.pred_init = true
  · by_cases hlt : s.prev_msg_time < t
    · simp [hp, hlt]
      exact Nat.le_of_lt hlt
    · simp [hp, hlt]
  · simp only [Bool.not_eq_true] at hp
    have h0 := hI hp
    simp [hp, h0]

theorem handle_clock {s s' : NodeData L} {e : Event L} {out : List (Effect L)}
    (hI : ClockInv s) (h : handle s e = some (s', out)) :
    s.prev_msg_time ≤ s'.prev_msg_time ∧ ClockInv s' := by
  cases e with
  | imu m =>
    simp only [handle, Option.some.injEq] at h
    have hs : s' = (imuCallback s m).1 := by rw [h]
    rw [hs]
    exact ⟨imuCallback_clock s m hI, fun hf => by simp at hf⟩
  | enc m =>
    simp only [handle, Option.some.injEq] at h
    have hs : s' = (odomCallback s m).1 := by rw [h]
    rw [hs]
    refine ⟨by simp, fun hf => ?_⟩
    simp only [odomCallback_pred_init, odomCallback_prev_msg_time] at hf ⊢
    exact hI hf
  | frame l r d n =>
    have h' : StereoDepthCb s l r d n = some (s', out) := by
      cases d <;> exact h
    rcases StereoDepthCb_cases h' with ⟨rfl, -⟩ | ⟨cl, cr, cd, -, hrun⟩
    · exact ⟨le_refl _, hI⟩
    · obtain ⟨-, hp, -, hi, -⟩ := Run_fields hrun
      rw [hp]
      exact ⟨Run.integrate_clock s cl.stamp hI, fun hf => by simp [hi] at hf⟩

theorem ClockInv_new (p : Params L) : ClockInv (NodeData.new L p) := fun _ => rfl

/-- C6: the integrator clock is monotonic.  After every sequence of events
handled from the initial node, whatever event comes next (inertial sample,
encoder sample or synchronized frame, with any timestamp) is handled to
completion and leaves `prev_msg_time` no smaller than it was. -/
theorem prev_msg_time_monotone (p : Params L) (evs : List (Event L)) (e : Event L)
    (hw : ∀ x ∈ evs ++ [e], x.wired p.use_depth = true) :
    ∃ s o s' o', runEvents (NodeData.new L p) evs = some (s, o) ∧
      handle s e = some (s', o') ∧ s.prev_msg_time ≤ s'.prev_msg_time := by
  obtain ⟨s, o, hs⟩ := runEvents_total evs (NodeData.new L p)
    (fun x hx => hw x (List.mem_append_left _ hx))
  have hu : s.use_depth = p.use_depth := runEvents_use_depth hs
  have hI : ClockInv s :=
    runEvents_invariant ClockInv (fun _ _ _ _ hP hh => (handle_clock hP hh).2) evs _ s o
      (ClockInv_new p) hs
  obtain ⟨s', o', hh⟩ := handle_total s e (by
    rw [hu]
    exact hw e (List.mem_append_right _ (List.mem_singleton_self e)))
  exact ⟨s, o, s', o', hs, hh, (handle_clock hI hh).1⟩

/-- C6 at a concrete history: after an inertial sample stamped 10 and a stereo
frame stamped 30, an inertial sample stamped 5 does not move the clock back. -/
theorem prev_msg_time_monotone_witness :
    ∃ s o s' o', runEvents (NodeData.new Planar.lib Planar.params)
        [Event.imu (Planar.imuMsg 10 1),
          Event.frame (Planar.img 30 1) (Planar.img 30 1) none 1] = some (s, o) ∧
      handle s (Event.imu (Planar.imuMsg 5 1)) = some (s', o') ∧
      s.prev_msg_time ≤ s'.prev_msg_time :=
  prev_msg_time_monotone Planar.params
    [Event.imu (Planar.imuMsg 10 1), Event.frame (Planar.img 30 1) (Planar.img 30 1) none 1]
    (Event.imu (Planar.imuMsg 5 1)) (by decide)

/-! ### Projections of a log -/

@[simp]
theorem estimates_append (a b : List (Effect L)) :
    estimates (a ++ b) = estimates a ++ estimates b := by
  induction a with
  | nil => rfl
  | cons e es ih => cases e <;> simp [estimates, ih]

@[simp]
theorem corrects_append (a b : List (Effect L)) :
    corrects (a ++ b) = corrects a ++ corrects b := by
  induction a with
  | nil => rfl
  | cons e es ih => cases e <;> simp [corrects, ih]

@[simp]
theorem scales_append (a b : List (Effect L)) :
    scales (a ++ b) = scales a ++ scales b := by
  induction a with
  | nil => rfl
  | cons e es ih => cases e <;> simp [scales, ih]

@[simp]
theorem cloudStamps_append (a b : List (Effect L)) :
    cloudStamps (a ++ b) = cloudStamps a ++ cloudStamps b := by
  induction a with
  | nil => rfl
  | cons e es ih => cases e <;> simp [cloudStamps, ih]

@[simp]
theorem Run.predict_estimates (s : NodeData L) (ts : ℚ) :
    estimates (Run.predict s ts).2.2 = [] := by
  unfold Run.predict
  split_ifs <;> rfl

@[simp]
theorem Run.predict_corrects (s : NodeData L) (ts : ℚ) :
    corrects (Run.predict s ts).2.2 = [] := by
  unfold Run.predict
  split_ifs <;> rfl

@[simp]
theorem Run.predict_scales (s : NodeData L) (ts : ℚ) :
    scales (Run.predict s ts).2.2 = [] := by
  unfold Run.predict
  split_ifs <;> rfl

@[simp]
theorem Run.predict_cloudStamps (s : NodeData L) (ts : ℚ) :
    cloudStamps (Run.predict s ts).2.2 = [] := by
  unfold Run.predict
  split_ifs <;> rfl

/-- The estimator stage calls the estimator exactly once. -/
theorem Run.estimate_estimates (s : NodeData L) (il ir im : L.Mat) (dt : ℚ) (t : Time)
    (n : Nat) :
    estimates (Run.estimate s il ir im dt t n).2 =
      [(L.estimate s.odom_ il ir s.dT_pred im).1] := by
  unfold Run.estimate PublishOdom PublishCloud SendTransform
  dsimp only
  split_ifs <;> simp [estimates]

/-- Every completed `Run` has called the estimator exactly once. -/
theorem Run_estimates {s s' : NodeData L} {l r : CvImage L.Mat} {t : Time}
    {d : Option (CvImage L.Mat)} {n : Nat} {out : List (Effect L)}
    (h : Run s l r t d n = some (s', out)) : ∃ st, estimates out = [st] := by
  rw [Run_eq] at h
  cases hm : Run.depth s d with
  | none => simp [hm] at h
  | some m =>
    simp only [hm, Option.map_some', Option.some.injEq, Prod.mk.injEq] at h
    obtain ⟨-, h2⟩ := h
    subst h2
    rw [estimates_append, Run.predict_estimates, Run.estimate_estimates]
    exact ⟨_, rfl⟩

/-! ### The first inertial sample -/

/-- As long as no inertial sample is handled and no frame reaches the
estimator, the integrator stays uninitialised. -/
theorem pred_init_false_of_quiet (evs : List (Event L)) :
    ∀ (s s' : NodeData L) (out : List (Effect L)), s.pred_init = false →
      runEvents s evs = some (s', out) → (∀ e ∈ evs, e.isImu = false) →
      estimates out = [] → s'.pred_init = false := by
  induction evs with
  | nil =>
    intro s s' out hp h _ _
    simp only [runEvents, Option.some.injEq, Prod.mk.injEq] at h
    exact h.1 ▸ hp
  | cons e es ih =>
    intro s s' out hp h hni hne
    obtain ⟨s1, o1, o2, h1, h2, rfl⟩ := runEvents_cons h
    simp only [estimates_append, List.append_eq_nil] at hne
    refine ih s1 s' o2 ?_ h2 (fun x hx => hni x (List.mem_cons_of_mem _ hx)) hne.2
    cases e with
    | imu m => exact absurd (hni _ (List.mem_cons_self _ _)) (by simp [Event.isImu])
    | enc m =>
      simp only [handle, Option.some.injEq] at h1
      have hs : s1 = (odomCallback s m).1 := by rw [h1]
      rw [hs]
      simpa using hp
    | frame l r d n =>
      have h' : StereoDepthCb s l r d n = some (s1, o1) := by
        cases d <;> exact h1
      rcases StereoDepthCb_cases h' with ⟨rfl, -⟩ | ⟨cl, cr, cd, -, hrun⟩
      · exact hp
      · obtain ⟨st, hst⟩ := Run_estimates hrun
        rw [hne.1] at hst
        exact absurd hst (by simp)

/-- C7, as the code has it: on an inertial sample handled in a state reached
from the initial node without any inertial sample and without any frame
reaching `Run` (encoder samples and frames that fail to decode may have been
handled), `imuCallback` records the sample's timestamp as `prev_msg_time` and
returns without producing a delta: `acc_pose` and `imu_pred_pose` keep their
values and nothing is published. -/
theorem imuCallback_first_sample (p : Params L) (evs : List (Event L)) (s : NodeData L)
    (o : List (Effect L)) (msgImu : Imu L.Vec L.Quat)
    (hrun : runEvents (NodeData.new L p) evs = some (s, o))
    (hno_imu : ∀ e ∈ evs, e.isImu = false) (hno_run : estimates o = []) :
    (imuCallback s msgImu).1.prev_msg_time = msgImu.stamp ∧
    (imuCallback s msgImu).1.acc_pose = s.acc_pose ∧
    (imuCallback s msgImu).1.imu_pred_pose = s.imu_pred_pose ∧
    (imuCallback s msgImu).2 = [] := by
  have hp : s.pred_init = false :=
    pred_init_false_of_quiet evs _ s o rfl hrun hno_imu hno_run
  unfold imuCallback
  by_cases hr : s.received_imu = true <;> simp [hr, hp]

/-- C7 as amended, at a concrete history: an encoder sample and a frame whose
right image does not decode come before the first inertial sample. -/
theorem imuCallback_first_sample_witness :
    (imuCallback (odomCallback (NodeData.new Planar.lib Planar.params) (Planar.encMsg 3 1)).1
      (Planar.imuMsg 20 1)).1.prev_msg_time = 20 ∧
    (imuCallback (odomCallback (NodeData.new Planar.lib Planar.params) (Planar.encMsg 3 1)).1
      (Planar.imuMsg 20 1)).2 = [] :=
  have h := imuCallback_first_sample Planar.params
    [Event.enc (Planar.encMsg 3 1), Event.frame (Planar.img 10 1) (Planar.badImg 10) none 1]
    (odomCallback (NodeData.new Planar.lib Planar.params) (Planar.encMsg 3 1)).1
    [Effect.log LogLevel.error] (Planar.imuMsg 20 1) rfl (by decide) rfl
  ⟨h.1, h.2.2.2⟩

/-- C7 as stated fails once a frame has been processed: after a single stereo
frame stamped 10 (no inertial sample handled yet), the first inertial sample,
stamped 20, is integrated and published, and a first inertial sample stamped 5
is dropped without its timestamp being recorded. -/
theorem imuCallback_first_sample_after_frame_counterexample :
    ∃ s o, runEvents (NodeData.new Planar.lib Planar.params)
        [Event.frame (Planar.img 10 1) (Planar.img 10 1) none 1] = some (s, o) ∧
      (∀ e ∈ [Event.frame (Planar.img 10 1) (Planar.img 10 1) none 1], e.isImu = false) ∧
      (imuCallback s (Planar.imuMsg 20 1)).2 =
        [Effect.imuOdomPublish 20 (imuCallback s (Planar.imuMsg 20 1)).1.acc_pose] ∧
      (imuCallback s (Planar.imuMsg 5 1)).1.prev_msg_time = 10 ∧
      (imuCallback s (Planar.imuMsg 5 1)).1.prev_msg_time ≠ (Planar.imuMsg 5 1).stamp :=
  ⟨_, _, rfl, by decide, rfl, by decide, by decide⟩

/-! ### Dead reckoning without an encoder -/

theorem ZeroInv_imuCallback (hL : TranslationLaws L) (s : NodeData L) (m : Imu L.Vec L.Quat)
    (hI : ZeroInv s) : ZeroInv (imuCallback s m).1 := by
  obtain ⟨hv, ha, hi⟩ := hI
  unfold imuCallback ZeroInv
  dsimp only
  split_ifs <;>
    simp [hv, ha, hi, hL.vecScale_zero, hL.translation_mul_mk_zero]

theorem ZeroInv_integrate (hL : TranslationLaws L) (s : NodeData L) (t : Time)
    (hI : ZeroInv s) : ZeroInv (Run.integrate s t) := by
  obtain ⟨hv, ha, hi⟩ := hI
  unfold Run.integrate ZeroInv
  dsimp only
  split_ifs <;>
    simp [hv, ha, hi, hL.vecScale_zero, hL.translation_mul_mk_zero]

theorem ZeroInv_handle (hL : TranslationLaws L) {s s' : NodeData L} {e : Event L}
    {out : List (Effect L)} (he : e.isEnc = false) (hI : ZeroInv s)
    (h : handle s e = some (s', out)) : ZeroInv s' := by
  cases e with
  | imu m =>
    simp only [handle, Option.some.injEq] at h
    have hs : s' = (imuCallback s m).1 := by rw [h]
    rw [hs]
    exact ZeroInv_imuCallback hL s m hI
  | enc m => simp [Event.isEnc] at he
  | frame l r d n =>
    have h' : StereoDepthCb s l r d n = some (s', out) := by
      cases d <;> exact h
    rcases StereoDepthCb_cases h' with ⟨rfl, -⟩ | ⟨cl, cr, cd, -, hrun⟩
    · exact hI
    · obtain ⟨ha, -, hv, -, hi, -⟩ := Run_fields hrun
      have hz := ZeroInv_integrate hL s cl.stamp hI
      refine ⟨?_, ?_, ?_⟩
      · rw [hv]
        exact hI.1
      · rw [ha]
        exact hz.2.1
      · rw [hi]
        exact hL.translation_id

/-- C10: if no encoder sample is ever handled, then in every state reached
from the initial node by inertial samples and synchronized frames the
translation part of `acc_pose` and of `imu_pred_pose` is zero, and the
gap-closing step of `Run` leaves `acc_pose` as it is.  The rigid-transform
library is assumed to satisfy `TranslationLaws`. -/
theorem translation_zero_without_encoder (hL : TranslationLaws L) (p : Params L)
    (evs : List (Event L)) (s : NodeData L) (o : List (Effect L))
    (hrun : runEvents (NodeData.new L p) evs = some (s, o))
    (hno_enc : ∀ e ∈ evs, e.isEnc = false) :
    L.translation s.acc_pose = L.vecZero ∧ L.translation s.imu_pred_pose = L.vecZero ∧
    ∀ t : Time, (Run.integrate s t).acc_pose = s.acc_pose := by
  have hI : ZeroInv s :=
    runEvents_invariant_on ZeroInv (fun e => e.isEnc = false)
      (fun _ _ _ _ hQ hP hh => ZeroInv_handle hL hQ hP hh) evs _ s o hno_enc
      ⟨rfl, hL.translation_id, hL.translation_id⟩ hrun
  refine ⟨hI.2.1, hI.2.2, fun t => ?_⟩
  unfold Run.integrate
  dsimp only
  split_ifs <;> simp [hI.1, hL.vecScale_zero, hL.mul_mk_id_zero]

theorem Planar.rotate_zero (k : Fin 4) : Planar.rotate k (0, 0, 0) = 0 := by
  unfold Planar.rotate
  split <;> simp

/-- The planar instance satisfies the translation laws. -/
theorem Planar.translationLaws : TranslationLaws Planar.lib where
  translation_id := rfl
  vecScale_zero := fun q => by simp
  translation_mul_mk_zero := fun a r => by
    obtain ⟨k, v⟩ := a
    show v + Planar.rotate k (0, 0, 0) = v
    rw [Planar.rotate_zero, add_zero]
  mul_mk_id_zero := fun a => by
    obtain ⟨k, v⟩ := a
    show (k + 0, v + Planar.rotate k (0, 0, 0)) = (k, v)
    rw [Planar.rotate_zero, add_zero, add_zero]

/-- C10 at a concrete history: two inertial samples and a stereo frame. -/
theorem translation_zero_without_encoder_witness :
    ∃ s o, runEvents (NodeData.new Planar.lib Planar.params)
        [Event.imu (Planar.imuMsg 10 1), Event.imu (Planar.imuMsg 20 1),
          Event.frame (Planar.img 30 1) (Planar.img 30 1) none 1] = some (s, o) ∧
      Planar.lib.translation s.acc_pose = (0, 0, 0) ∧
      Planar.lib.translation s.imu_pred_pose = (0, 0, 0) :=
  (runEvents_total [Event.imu (Planar.imuMsg 10 1), Event.imu (Planar.imuMsg 20 1),
      Event.frame (Planar.img 30 1) (Planar.img 30 1) none 1]
    (NodeData.new Planar.lib Planar.params) (by decide)).elim fun s hs =>
    hs.elim fun o ho =>
      have h := translation_zero_without_encoder Planar.translationLaws Planar.params _ s o ho
        (by decide)
      ⟨s, o, ho, h.1, h.2.1⟩

/-! ### Dead reckoning as a right-composition of per-sample deltas -/

theorem lastImuStamp_cons (x : Event L) (xs : List (Event L)) :
    lastImuStamp (x :: xs) = (lastImuStamp xs).or x.imuStamp := by
  simp only [lastImuStamp]
  cases lastImuStamp xs <;> rfl

theorem lastImuStamp_snoc (pre : List (Event L)) (e : Event L) :
    lastImuStamp (pre ++ [e]) = (e.imuStamp).or (lastImuStamp pre) := by
  induction pre with
  | nil => cases h : e.imuStamp <;> simp [lastImuStamp, h]
  | cons x xs ih =>
    rw [List.cons_append, lastImuStamp_cons, ih, lastImuStamp_cons]
    cases e.imuStamp <;> cases lastImuStamp xs <;> cases x.imuStamp <;> rfl

theorem lastEncVelocity_cons (x : Event L) (xs : List (Event L)) :
    lastEncVelocity (x :: xs) =
      if xs.any Event.isEnc then lastEncVelocity xs
      else match x with
        | .enc msgEnc => msgEnc.linear
        | _ => L.vecZero := rfl

theorem any_isEnc_snoc (pre : List (Event L)) (e : Event L) :
    (pre ++ [e]).any Event.isEnc = (pre.any Event.isEnc || e.isEnc) := by
  simp [List.any_append]

theorem lastEncVelocity_snoc_enc (pre : List (Event L)) (m : Odometry L.Vec) :
    lastEncVelocity (pre ++ [Event.enc m]) = m.linear := by
  induction pre with
  | nil => simp [lastEncVelocity]
  | cons x xs ih =>
    rw [List.cons_append, lastEncVelocity_cons, ih, any_isEnc_snoc]
    simp [Event.isEnc]

theorem lastEncVelocity_snoc_other (pre : List (Event L)) (e : Event L)
    (he : e.isEnc = false) : lastEncVelocity (pre ++ [e]) = lastEncVelocity pre := by
  induction pre with
  | nil => cases e <;> simp_all [lastEncVelocity, Event.isEnc]
  | cons x xs ih =>
    rw [List.cons_append, lastEncVelocity_cons, ih, any_isEnc_snoc, he, Bool.or_false,
      lastEncVelocity_cons]

theorem lastImuStamp_mem (pre : List (Event L)) (t : Time) (h : lastImuStamp pre = some t) :
    t ∈ pre.filterMap Event.imuStamp := by
  induction pre with
  | nil => simp [lastImuStamp] at h
  | cons x xs ih =>
    simp only [lastImuStamp] at h
    cases hx : lastImuStamp xs with
    | some u =>
      simp only [hx, Option.some.injEq] at h
      subst h
      cases hs : x.imuStamp <;> simp [List.filterMap_cons, hs, ih hx]
    | none =>
      simp only [hx] at h
      simp [List.filterMap_cons, h]

theorem imuCallback_first (s : NodeData L) (m : Imu L.Vec L.Quat) (hp : s.pred_init = false) :
    (imuCallback s m).1.prev_msg_time = m.stamp ∧ (imuCallback s m).1.acc_pose = s.acc_pose := by
  unfold imuCallback
  by_cases hr : s.received_imu = true <;> simp [hr, hp]

theorem imuCallback_integrates (s : NodeData L) (m : Imu L.Vec L.Quat)
    (hp : s.pred_init = true) (hle : ¬ m.stamp < s.prev_msg_time) :
    (imuCallback s m).1.prev_msg_time = m.stamp ∧
    (imuCallback s m).1.acc_pose = L.se3Mul s.acc_pose
      (L.se3Mk (L.so3Exp (L.vecScale m.angular_velocity (Time.sub m.stamp s.prev_msg_time).toSec))
        (L.vecScale s.tw_vel (Time.sub m.stamp s.prev_msg_time).toSec)) := by
  unfold imuCallback
  by_cases hr : s.received_imu = true <;> simp [hr, hp, hle]

/-- One handler step keeps the integrator in agreement with the history and
composes the sample's delta, if it has one, onto `acc_pose`. -/
theorem HistInv_step (pre : List (Event L)) (s : NodeData L) (e : Event L)
    (hI : HistInv pre s) (hnf : e.isFrame = false)
    (hord : ∀ a ∈ pre.filterMap Event.imuStamp, ∀ b ∈ e.imuStamp, a < b) :
    ∃ s1 o1, handle s e = some (s1, o1) ∧ HistInv (pre ++ [e]) s1 ∧
      s1.acc_pose = rightCompose L s.acc_pose (sampleDelta pre e).toList := by
  obtain ⟨hp, ht, hv⟩ := hI
  cases e with
  | frame l r d n => simp [Event.isFrame] at hnf
  | enc m =>
    refine ⟨(odomCallback s m).1, (odomCallback s m).2, rfl, ⟨?_, ?_, ?_⟩, ?_⟩
    · simpa [lastImuStamp_snoc, Event.imuStamp] using hp
    · intro t h
      rw [lastImuStamp_snoc] at h
      simpa using ht t (by simpa [Event.imuStamp] using h)
    · rw [lastEncVelocity_snoc_enc]
      simp
    · simp [sampleDelta, rightCompose]
  | imu m =>
    refine ⟨(imuCallback s m).1, (imuCallback s m).2, rfl, ?_⟩
    cases hl : lastImuStamp pre with
    | none =>
      have hp' : s.pred_init = false := by simpa [hl] using hp
      obtain ⟨h1, h2⟩ := imuCallback_first s m hp'
      refine ⟨⟨?_, ?_, ?_⟩, ?_⟩
      · simp [lastImuStamp_snoc, Event.imuStamp]
      · intro t h
        rw [lastImuStamp_snoc] at h
        simp only [Event.imuStamp, Option.or_some, Option.some.injEq] at h
        rw [h1, h]
      · rw [lastEncVelocity_snoc_other pre (Event.imu m) rfl]
        simpa using hv
      · simp [sampleDelta, hl, rightCompose, h2]
    | some tp =>
      have hp' : s.pred_init = true := by simpa [hl] using hp
      have htp : s.prev_msg_time = tp := ht tp hl
      have hlt : tp < m.stamp :=
        hord tp (lastImuStamp_mem pre tp hl) m.stamp (by simp [Event.imuStamp])
      have hle : ¬ m.stamp < s.prev_msg_time := by
        rw [htp]
        exact Nat.not_lt.mpr (Nat.le_of_lt hlt)
      obtain ⟨h1, h2⟩ := imuCallback_integrates s m hp' hle
      refine ⟨⟨?_, ?_, ?_⟩, ?_⟩
      · simp [lastImuStamp_snoc, Event.imuStamp]
      · intro t h
        rw [lastImuStamp_snoc] at h
        simp only [Event.imuStamp, Option.or_some, Option.some.injEq] at h
        rw [h1, h]
      · rw [lastEncVelocity_snoc_other pre (Event.imu m) rfl]
        simpa using hv
      · rw [h2, htp, hv]
        simp [sampleDelta, hl, rightCompose]

theorem acc_pose_from_history (rest : List (Event L)) :
    ∀ (pre : List (Event L)) (s : NodeData L), HistInv pre s →
      (∀ e ∈ rest, e.isFrame = false) →
      ((pre ++ rest).filterMap Event.imuStamp).Pairwise (· < ·) →
      ∃ s' o, runEvents s rest = some (s', o) ∧
        s'.acc_pose = rightCompose L s.acc_pose (sampleDeltasFrom pre rest) := by
  induction rest with
  | nil =>
    intro pre s _ _ _
    exact ⟨s, [], rfl, rfl⟩
  | cons e es ih =>
    intro pre s hI hnf hord
    have hord' := hord
    rw [List.filterMap_append, List.pairwise_append] at hord'
    obtain ⟨s1, o1, h1, hI1, ha1⟩ := HistInv_step pre s e hI (hnf e (List.mem_cons_self _ _))
      (fun a ha b hb => hord'.2.2 a ha b (by
        cases he : e.imuStamp with
        | none => simp [he] at hb
        | some u =>
          simp only [he, Option.mem_def, Option.some.injEq] at hb
          subst hb
          simp [List.filterMap_cons, he]))
    obtain ⟨s2, o2, h2, ha2⟩ := ih (pre ++ [e]) s1 hI1
      (fun x hx => hnf x (List.mem_cons_of_mem _ hx)) (by simpa using hord)
    refine ⟨s2, o1 ++ o2, ?_, ?_⟩
    · simp [runEvents, h1, h2]
    · rw [ha2, ha1]
      simp [sampleDeltasFrom, rightCompose, List.foldl_append]

/-- C1: from the initial node, over inertial samples with strictly increasing
timestamps, interleaved with encoder samples and no frames, the event loop
completes and `acc_pose` is the right-composition onto the identity, in
arrival order, of the per-sample deltas `(exp(omega_i * dt_i), v_i * dt_i)`:
`dt_i` is the time since the previous inertial sample, `v_i` the velocity of
the most recent encoder sample (zero if none), and the first inertial sample
contributes no delta. -/
theorem acc_pose_right_composition (p : Params L) (evs : List (Event L))
    (hnf : ∀ e ∈ evs, e.isFrame = false)
    (hinc : (evs.filterMap Event.imuStamp).Pairwise (· < ·)) :
    ∃ s o, runEvents (NodeData.new L p) evs = some (s, o) ∧
      s.acc_pose = rightCompose L L.se3Id (sampleDeltas evs) :=
  acc_pose_from_history evs [] (NodeData.new L p) ⟨rfl, fun _ h => by simp [lastImuStamp] at h, rfl⟩
    hnf (by simpa using hinc)

/-- C1 at a concrete sequence: three inertial samples with an encoder sample
after the first. -/
theorem acc_pose_right_composition_witness :
    ∃ s o, runEvents (NodeData.new Planar.lib Planar.params)
        [Event.imu (Planar.imuMsg 10 1), Event.enc (Planar.encMsg 12 3),
          Event.imu (Planar.imuMsg 20 1), Event.imu (Planar.imuMsg 40 2)] = some (s, o) ∧
      s.acc_pose = rightCompose Planar.lib Planar.lib.se3Id
        (sampleDeltas [Event.imu (Planar.imuMsg 10 1), Event.enc (Planar.encMsg 12 3),
          Event.imu (Planar.imuMsg 20 1), Event.imu (Planar.imuMsg 40 2)]) :=
  acc_pose_right_composition Planar.params
    [Event.imu (Planar.imuMsg 10 1), Event.enc (Planar.encMsg 12 3),
      Event.imu (Planar.imuMsg 20 1), Event.imu (Planar.imuMsg 40 2)] (by decide) (by decide)

/-! ### Motion-model protocol -/

theorem Time.toSec_nonneg (t : Time) : 0 ≤ t.toSec := by
  unfold Time.toSec
  positivity

theorem imuCallback_estimates (s : NodeData L) (m : Imu L.Vec L.Quat) :
    estimates (imuCallback s m).2 = [] := by
  unfold imuCallback
  dsimp only
  split_ifs <;> rfl

theorem FrameInv_handle {s s1 : NodeData L} {e : Event L} {o0 o1 : List (Effect L)}
    (hI : FrameInv o0 s) (h : handle s e = some (s1, o1)) : FrameInv (o0 ++ o1) s1 := by
  cases e with
  | imu m =>
    simp only [handle, Option.some.injEq] at h
    have hs : s1 = (imuCallback s m).1 := by rw [h]
    have ho : o1 = (imuCallback s m).2 := by rw [h]
    rw [hs, ho]
    simpa [FrameInv, imuCallback_estimates] using hI
  | enc m =>
    simp only [handle, Option.some.injEq] at h
    have hs : s1 = (odomCallback s m).1 := by rw [h]
    have ho : o1 = (odomCallback s m).2 := by rw [h]
    rw [hs, ho]
    simpa [FrameInv] using hI
  | frame l r d n =>
    have h' : StereoDepthCb s l r d n = some (s1, o1) := by
      cases d <;> exact h
    rcases StereoDepthCb_cases h' with ⟨rfl, rfl⟩ | ⟨cl, cr, cd, -, hrun⟩
    · simpa [FrameInv, estimates] using hI
    · obtain ⟨st, hst⟩ := Run_estimates hrun
      have hpt := (Run_fields hrun).2.2.2.2.2.2.2
      refine Or.inr ⟨by simp [hst], ?_⟩
      rw [hpt]
      exact Time.toSec_nonneg _

theorem FrameInv_runEvents (evs : List (Event L)) :
    ∀ (s s' : NodeData L) (o0 o : List (Effect L)), FrameInv o0 s →
      runEvents s evs = some (s', o) → FrameInv (o0 ++ o) s' := by
  induction evs with
  | nil =>
    intro s s' o0 o hI h
    simp only [runEvents, Option.some.injEq, Prod.mk.injEq] at h
    obtain ⟨rfl, rfl⟩ := h
    simpa using hI
  | cons e es ih =>
    intro s s' o0 o hI h
    obtain ⟨s1, o1, o2, h1, h2, rfl⟩ := runEvents_cons h
    have := ih s1 s' (o0 ++ o1) o2 (FrameInv_handle hI h1) h2
    simpa [List.append_assoc] using this

theorem Run.predict_flag (s : NodeData L) (ts : ℚ) :
    (Run.predict s ts).1.flag = if s.prev_time < 0 then 1 else 0 := by
  unfold Run.predict
  split_ifs <;> rfl

theorem Run.predict_dt (s : NodeData L) (ts : ℚ) :
    (Run.predict s ts).2.1 = if s.prev_time < 0 then 0 else ts - s.prev_time := by
  unfold Run.predict
  split_ifs <;> rfl

/-- The estimator stage makes exactly one call on the motion model:
`Correct(Twc, dt)` when tracking is ok and `flag` is 0, else `Scale(0.5)`. -/
theorem Run.estimate_motion (s : NodeData L) (il ir im : L.Mat) (dt : ℚ) (t : Time) (n : Nat) :
    (((L.estimate s.odom_ il ir s.dT_pred im).1.track_ok = true ∧ s.flag = 0) →
      corrects (Run.estimate s il ir im dt t n).2 =
        [((L.estimate s.odom_ il ir s.dT_pred im).1.Twc, dt)] ∧
      scales (Run.estimate s il ir im dt t n).2 = []) ∧
    (¬ ((L.estimate s.odom_ il ir s.dT_pred im).1.track_ok = true ∧ s.flag = 0) →
      corrects (Run.estimate s il ir im dt t n).2 = [] ∧
      scales (Run.estimate s il ir im dt t n).2 = [1 / 2]) := by
  constructor
  · intro h
    unfold Run.estimate PublishOdom PublishCloud SendTransform
    dsimp only
    split_ifs <;> simp_all [corrects, scales]
  · intro h
    unfold Run.estimate PublishOdom PublishCloud SendTransform
    dsimp only
    split_ifs <;> simp_all [corrects, scales]

/-- The estimator stage publishes a cloud, stamped with the frame timestamp,
exactly when the status reports a removed keyframe and the `points` topic has
a subscriber. -/
theorem Run.estimate_cloudStamps (s : NodeData L) (il ir im : L.Mat) (dt : ℚ) (t : Time)
    (n : Nat) :
    cloudStamps (Run.estimate s il ir im dt t n).2 =
      if (L.estimate s.odom_ il ir s.dT_pred im).1.map_remove_kf = true ∧ n ≠ 0 then [t]
      else [] := by
  unfold Run.estimate PublishOdom PublishCloud SendTransform
  dsimp only
  split_ifs <;> simp_all [cloudStamps]

/-- C3: in a frame cycle that reaches the estimator, after any history from
the initial node, `Run` makes exactly one call on the motion model:
`Correct(status.Twc(), dt)`, with `dt` the time since the previous processed
frame, if the estimator reported `track.ok` and the estimator had been called
before (the cycle is not the first processed frame), and `Scale(0.5)`
otherwise.  On the first processed frame `Correct` is not called and the
local `dt` is zero. -/
theorem Run_correct_or_scale (p : Params L) (evs : List (Event L)) (s : NodeData L)
    (o : List (Effect L)) (hrun : runEvents (NodeData.new L p) evs = some (s, o))
    (l r : CvImage L.Mat) (t : Time) (d : Option (CvImage L.Mat)) (n : Nat)
    (hd : s.use_depth = true → d.isSome = true) :
    ∃ s' out st, Run s l r t d n = some (s', out) ∧ estimates out = [st] ∧
      ((st.track_ok = true ∧ estimates o ≠ []) →
        corrects out = [(st.Twc, t.toSec - s.prev_time)] ∧ scales out = []) ∧
      (¬ (st.track_ok = true ∧ estimates o ≠ []) →
        corrects out = [] ∧ scales out = [1 / 2]) ∧
      (estimates o = [] →
        corrects out = [] ∧
        (Run.predict (getPrediction (Run.integrate s t)).1 t.toSec).2.1 = 0) := by
  have hI : FrameInv o s := by
    have := FrameInv_runEvents evs (NodeData.new L p) s [] o (Or.inl ⟨rfl, rfl⟩) hrun
    simpa using this
  obtain ⟨m, hm⟩ := Run.depth_isSome s d hd
  have hflag : (Run.predict (getPrediction (Run.integrate s t)).1 t.toSec).1.flag =
      if s.prev_time < 0 then 1 else 0 := by
    rw [Run.predict_flag]
    simp
  have hdt : (Run.predict (getPrediction (Run.integrate s t)).1 t.toSec).2.1 =
      if s.prev_time < 0 then 0 else t.toSec - s.prev_time := by
    rw [Run.predict_dt]
    simp
  have hmot := Run.estimate_motion
    ({ (Run.predict (getPrediction (Run.integrate s t)).1 t.toSec).1 with
        imu_pred_pose := L.se3Id }) l.image r.image m
    (Run.predict (getPrediction (Run.integrate s t)).1 t.toSec).2.1 t n
  have hR := Run_eq s l r t d n
  rw [hm, Option.map_some'] at hR
  refine ⟨_, _, (L.estimate
    ({ (Run.predict (getPrediction (Run.integrate s t)).1 t.toSec).1 with
        imu_pred_pose := L.se3Id }).odom_ l.image r.image
    ({ (Run.predict (getPrediction (Run.integrate s t)).1 t.toSec).1 with
        imu_pred_pose := L.se3Id }).dT_pred m).1, hR, ?_, ?_, ?_, ?_⟩
  · rw [estimates_append, Run.predict_estimates, Run.estimate_estimates]
    rfl
  · rintro ⟨hok, hne⟩
    have hpt : ¬ s.prev_time < 0 := by
      rcases hI with ⟨h0, -⟩ | ⟨-, h0⟩
      · exact absurd h0 hne
      · exact not_lt.mpr h0
    obtain ⟨hc, hs⟩ := hmot.1 ⟨hok, by simp [hflag, hpt]⟩
    refine ⟨?_, ?_⟩
    · rw [corrects_append, Run.predict_corrects, List.nil_append, hc, hdt, if_neg hpt]
    · rw [scales_append, Run.predict_scales, List.nil_append, hs]
  · intro hn
    obtain ⟨hc, hs⟩ := hmot.2 (by
      rintro ⟨hok, hfl⟩
      apply hn
      refine ⟨hok, fun he => ?_⟩
      rcases hI with ⟨-, h0⟩ | ⟨h0, -⟩
      · simp [hflag, h0] at hfl
      · exact h0 he)
    refine ⟨?_, ?_⟩
    · rw [corrects_append, Run.predict_corrects, List.nil_append, hc]
    · rw [scales_append, Run.predict_scales, List.nil_append, hs]
  · intro he
    have hpt : s.prev_time < 0 := by
      rcases hI with ⟨-, h0⟩ | ⟨h0, -⟩
      · rw [h0]
        norm_num
      · exact absurd he h0
    refine ⟨?_, by rw [hdt, if_pos hpt]⟩
    obtain ⟨hc, -⟩ := hmot.2 (by
      rintro ⟨-, hfl⟩
      simp [hflag, hpt] at hfl)
    rw [corrects_append, Run.predict_corrects, List.nil_append, hc]

/-- C3 at a concrete cycle: the first stereo frame of a run, tracked
successfully; the motion model is scaled and not corrected. -/
theorem Run_correct_or_scale_witness :
    ∃ s' out st, Run (NodeData.new Planar.lib Planar.params) ⟨10, 1⟩ ⟨10, 1⟩ 10 none 1 =
        some (s', out) ∧ estimates out = [st] ∧ corrects out = [] ∧ scales out = [1 / 2] :=
  have h := Run_correct_or_scale Planar.params [] (NodeData.new Planar.lib Planar.params) []
    rfl ⟨10, 1⟩ ⟨10, 1⟩ 10 none 1 (by decide)
  h.elim fun s' h1 => h1.elim fun out h2 => h2.elim fun st h3 =>
    ⟨s', out, st, h3.1, h3.2.1, (h3.2.2.2.1 (fun hc => hc.2 rfl)).1,
      (h3.2.2.2.1 (fun hc => hc.2 rfl)).2⟩

/-! ### Cloud emission -/

/-- C4, as the code has it: a completed frame cycle publishes a cloud if and
only if that cycle's status has `map.remove_kf` set and the `points` topic
has at least one subscriber; the cloud then carries the cycle's frame
timestamp, and at most one cloud is published per cycle. -/
theorem Run_cloud_emission (s : NodeData L) (l r : CvImage L.Mat) (t : Time)
    (d : Option (CvImage L.Mat)) (n : Nat) (hd : s.use_depth = true → d.isSome = true) :
    ∃ s' out st, Run s l r t d n = some (s', out) ∧ estimates out = [st] ∧
      cloudStamps out = if st.map_remove_kf = true ∧ n ≠ 0 then [t] else [] := by
  obtain ⟨m, hm⟩ := Run.depth_isSome s d hd
  have hR := Run_eq s l r t d n
  rw [hm, Option.map_some'] at hR
  refine ⟨_, _, (L.estimate
    ({ (Run.predict (getPrediction (Run.integrate s t)).1 t.toSec).1 with
        imu_pred_pose := L.se3Id }).odom_ l.image r.image
    ({ (Run.predict (getPrediction (Run.integrate s t)).1 t.toSec).1 with
        imu_pred_pose := L.se3Id }).dT_pred m).1, hR, ?_, ?_⟩
  · rw [estimates_append, Run.predict_estimates, Run.estimate_estimates]
    rfl
  · rw [cloudStamps_append, Run.predict_cloudStamps, Run.estimate_cloudStamps]
    rfl

/-- C4 as amended, at a concrete cycle: a stereo frame stamped 30 whose status
reports a removed keyframe, with one subscriber. -/
theorem Run_cloud_emission_witness :
    ∃ s' out st, Run (NodeData.new Planar.lib Planar.params) ⟨30, 1⟩ ⟨30, 1⟩ 30 none 1 =
        some (s', out) ∧ estimates out = [st] ∧
      cloudStamps out = if st.map_remove_kf = true ∧ 1 ≠ 0 then [30] else [] :=
  Run_cloud_emission (NodeData.new Planar.lib Planar.params) ⟨30, 1⟩ ⟨30, 1⟩ 30 none 1
    (by decide)

/-- C4 as stated fails when nobody subscribes to the `points` topic: the
cycle's status reports a removed keyframe and no cloud is published. -/
theorem Run_cloud_no_subscriber_counterexample :
    ∃ s' out st, Run (NodeData.new Planar.lib Planar.params) ⟨30, 1⟩ ⟨30, 1⟩ 30 none 0 =
        some (s', out) ∧ estimates out = [st] ∧ st.map_remove_kf = true ∧
      cloudStamps out = [] :=
  ⟨_, _, _, rfl, rfl, rfl, rfl⟩

/-- The example of C4 with a subscriber present: of five stereo frames only
the third reports a removed keyframe; exactly one cloud is published, stamped
with the third frame's timestamp. -/
theorem five_frames_one_cloud :
    (runEvents (NodeData.new Planar.lib Planar.params)
      [Event.frame (Planar.img 10 1) (Planar.img 10 2) none 1,
        Event.frame (Planar.img 20 1) (Planar.img 20 2) none 1,
        Event.frame (Planar.img 30 1) (Planar.img 30 3) none 1,
        Event.frame (Planar.img 40 1) (Planar.img 40 2) none 1,
        Event.frame (Planar.img 50 1) (Planar.img 50 2) none 1]).map
      (fun r => (cloudStamps r.2, (estimates r.2).map (fun st => st.map_remove_kf))) =
      some ([30], [false, false, true, false, false]) := by
  decide!

end sv.dsol
